import Mathlib

/-!
Verification of the offline-first admission hub: a shallow embedding of the
cache manager (`src/lib/cache-manager.ts`), the cached data service
(`src/lib/cached-data-service.ts`), the payment submission handler
(`Payments.tsx` `handleSubmit`), the offline queue (`src/lib/offline-db.ts`)
and the sync orchestrator (`src/hooks/useOfflineSync.ts` `syncAll`), together
with theorems settling the specification claims about them.
-/

namespace AdmissionHub

/-! ### Cache manager embedding (`cache-manager.ts`)

`localStorage` is modelled as a finite map from string keys to structured
cache entries (the JSON (de)serialization layer is kept out of the model;
every stored entry is well formed).  The wall clock (`Date.now()`) is an
explicit `Nat` parameter. -/

structure CacheEntry (α : Type) where
  data : α
  timestamp : Nat
  ttl : Nat
  essential : Option Bool
deriving DecidableEq, Repr

structure CacheOptions where
  ttl : Option Nat := none
  essential : Option Bool := none
deriving DecidableEq, Repr

def DEFAULT_TTL : Nat := 24 * 60 * 60 * 1000

def cachePfx : String := "admission_hub_cache_"

def ESSENTIAL_CACHES : List String := ["students_all", "grades_all", "grade_terms_all"]

def Store (α : Type) : Type := String → Option (CacheEntry α)

def emptyStore {α : Type} : Store α := fun _ => none

def pfxKey (key : String) : String := cachePfx ++ key

/-- Character-list test that `p` starts the list `s`. -/
def listStarts : List Char → List Char → Bool
  | [], _ => true
  | _ :: _, [] => false
  | p :: ps, c :: cs => p = c && listStarts ps cs

def strStarts (p s : String) : Bool := listStarts p.toList s.toList

/-- Embeds `options?.ttl || DEFAULT_TTL`: the JavaScript or-operator replaces
both an absent and a zero ttl with the default. -/
def effTtl (o : CacheOptions) : Nat :=
  match o.ttl with
  | none => DEFAULT_TTL
  | some t => if t = 0 then DEFAULT_TTL else t

/-- Embeds `options?.essential !== false && ESSENTIAL_CACHES.has(key)`. -/
def essentialFor (key : String) (o : CacheOptions) : Bool :=
  (o.essential != some false) && ESSENTIAL_CACHES.contains key

def setCache {α : Type} (key : String) (v : α) (o : CacheOptions) (now : Nat)
    (st : Store α) : Store α :=
  fun k => if k = pfxKey key then some ⟨v, now, effTtl o, some (essentialFor key o)⟩ else st k

def clearCache {α : Type} (key : String) (st : Store α) : Store α :=
  fun k => if k = pfxKey key then none else st k

/-- Embeds `getCache`: returns the cached value when present and unexpired; an expired
entry is removed from the store (lazy eviction) and `null` is returned. -/
def getCache {α : Type} (key : String) (now : Nat) (st : Store α) :
    Option α × Store α :=
  match st (pfxKey key) with
  | none => (none, st)
  | some e => if now - e.timestamp > e.ttl then (none, clearCache key st) else (some e.data, st)

/-- JavaScript `!cacheEntry.essential` is false exactly when the flag is
present and `true`. -/
def isEssentialEntry {α : Type} (e : CacheEntry α) : Bool := e.essential = some true

def clearNonEssentialCaches {α : Type} (st : Store α) : Store α :=
  fun k =>
    match st k with
    | none => none
    | some e => if strStarts cachePfx k && !(isEssentialEntry e) then none else some e

def clearAllCaches {α : Type} (st : Store α) : Store α :=
  fun k => if strStarts cachePfx k then none else st k

/-- The public mutating surface of the cache manager (`getCacheInfo` reads
only and is omitted). -/
inductive CacheOp (α : Type) where
  | setOp (key : String) (v : α) (o : CacheOptions)
  | getOp (key : String)
  | clearOp (key : String)
  | clearNonEssentialOp
  | clearAllOp
deriving DecidableEq

def applyOp {α : Type} : CacheOp α → Nat → Store α → Store α
  | .setOp key v o, now, st => setCache key v o now st
  | .getOp key, now, st => (getCache key now st).2
  | .clearOp key, _, st => clearCache key st
  | .clearNonEssentialOp, _, st => clearNonEssentialCaches st
  | .clearAllOp, _, st => clearAllCaches st

/-! ### Read-through data service embedding (`cached-data-service.ts`)

`getStudents` (and its siblings `getGrades`, `getGradeTerms`, …, which share
the same shape) is a pure function of the force-refresh option, the
connectivity signal, the outcome the remote fetch would have, the clock and
the cache store.  It returns the service result together with the updated
store. -/

inductive FetchResult (α : Type) where
  | ok (data : α)
  | err (msg : String)
deriving DecidableEq, Repr

def offlineNoDataMsg : String := "Offline and no cached data available"

def STUDENTS_KEY : String := "students_all"

def readThrough {α : Type} (key : String) (forceRefresh online : Bool)
    (fetch : FetchResult α) (now : Nat) (st : Store α) : Except String α × Store α :=
  let step1 : Option α × Store α :=
    if forceRefresh then (none, st) else getCache key now st
  match step1.1 with
  | some cached => (.ok cached, step1.2)
  | none =>
    if online = false then
      match (getCache key now step1.2).1 with
      | some cached => (.ok cached, (getCache key now step1.2).2)
      | none => (.error offlineNoDataMsg, (getCache key now step1.2).2)
    else
      match fetch with
      | .ok data => (.ok data, setCache key data {} now step1.2)
      | .err msg =>
        match (getCache key now step1.2).1 with
        | some cached => (.ok cached, (getCache key now step1.2).2)
        | none => (.error msg, (getCache key now step1.2).2)

def getStudents {α : Type} (forceRefresh online : Bool) (fetch : FetchResult α)
    (now : Nat) (st : Store α) : Except String α × Store α :=
  readThrough STUDENTS_KEY forceRefresh online fetch now st

/-! ### Payment submission embedding (`Payments.tsx` `handleSubmit`)

Amounts are modelled as exact rationals: the JavaScript `parseFloat` is
embedded as `parseFloatQ` over the characters that survive the two
normalizing regexes (digits, `.` and `-`), parsing the longest valid
leading numeric segment as `parseFloat` does. -/

/-- Decimal value of a digit list. -/
def digitsVal (cs : List Char) : Nat :=
  cs.foldl (fun a c => a * 10 + (c.toNat - '0'.toNat)) 0

/-- The first maximal run of digits in the string, as matched by `/(\d+)/`. -/
def firstDigitRun : List Char → List Char
  | [] => []
  | c :: cs => if c.isDigit then (c :: cs).takeWhile Char.isDigit else firstDigitRun cs

/-- Embeds `parseTermOrder`: numeric order parsed from a term label like `"Term 2"`;
0 when the argument is undefined, empty, or contains no digits. -/
def parseTermOrder (term : Option String) : Nat :=
  match term with
  | none => 0
  | some s => if s = "" then 0 else digitsVal (firstDigitRun s.toList)

/-- JavaScript `x || d` for a possibly-null string (null and `""` are falsy). -/
def orDefaultStr (s : Option String) (d : String) : String :=
  match s with
  | none => d
  | some t => if t = "" then d else t

/-- JavaScript `x || null` for a string. -/
def jsOrNone (s : String) : Option String := if s = "" then none else some s

/-- Characters removed by the first regex `/[,\sKShksh$£€]/g`. -/
def isCurrencyStrip (c : Char) : Bool :=
  c = ',' || c.isWhitespace || c = 'K' || c = 'S' || c = 'h' || c = 'k' || c = 's' ||
    c = '$' || c = '£' || c = '€'

/-- Characters kept by the second regex `/[^0-9.-]/g` (which removes the rest). -/
def keepNumeric (c : Char) : Bool := c.isDigit || c = '.' || c = '-'

def normalizeAmount (s : String) : String :=
  String.mk ((s.toList.filter (fun c => !isCurrencyStrip c)).filter keepNumeric)

/-- Embeds `parseFloat`: longest valid leading decimal segment; `none` models `NaN`.  The
value `±(ip.fp)` is assembled as the exact rational
`(ip * 10^|fp| + fp) / 10^|fp|`. -/
def parseFloatQ (s : String) : Option ℚ :=
  let cs := s.toList
  let neg : Bool := match cs with | '-' :: _ => true | _ => false
  let rest : List Char := match cs with | '-' :: r => r | '+' :: r => r | _ => cs
  let ip := rest.takeWhile Char.isDigit
  let rest2 := rest.dropWhile Char.isDigit
  match rest2 with
  | '.' :: r3 =>
    let fp := r3.takeWhile Char.isDigit
    if ip.isEmpty && fp.isEmpty then none
    else
      let mag : Int := (digitsVal ip) * (10 ^ fp.length) + digitsVal fp
      some (mkRat (if neg then -mag else mag) (10 ^ fp.length))
  | _ =>
    if ip.isEmpty then none
    else
      let mag : Int := digitsVal ip
      some (mkRat (if neg then -mag else mag) 1)

/-- The amount pipeline of `handleSubmit`: strip currency text, then parse. -/
def parseAmount (s : String) : Option ℚ := parseFloatQ (normalizeAmount s)

/-- Embeds the JavaScript string trim: strip whitespace from both ends. -/
def jsTrim (s : String) : String :=
  String.mk (((s.toList.dropWhile Char.isWhitespace).reverse.dropWhile
    Char.isWhitespace).reverse)

/-- Lowercasing for the case-insensitive `ilike` comparison. -/
def lowerStr (s : String) : String := String.mk (s.toList.map Char.toLower)

/-- Embeds the reference sanitization: trim, then keep only alphanumeric
characters and hyphens. -/
def sanitizeRef (s : String) : String :=
  String.mk ((jsTrim s).toList.filter (fun c => c.isAlphanum || c = '-'))

structure StudentRec where
  id : String
  student_id : String
  name : String
  grade_id : Option String
  admission_term : Option String
  admission_year : Option Int
deriving DecidableEq, Repr

structure GradeRec where
  id : String
  name : String
  fee_per_term : ℚ
deriving DecidableEq, Repr

structure GradeTermRec where
  grade_id : String
  term_name : String
  academic_year : Int
  fee_amount : ℚ
deriving DecidableEq, Repr

/-- A row of the payments page state, a payment joined with its student:
only the
fields the validation reads. -/
structure PaymentRow where
  studentRef : Option String
  amount : Option ℚ
  admission_term : Option String
  admission_year : Option Int
deriving DecidableEq, Repr

structure PaymentForm where
  studentId : String
  amount : String
  method : String
  reference : String
  admissionTerm : String
  admissionYear : Int
deriving DecidableEq, Repr

structure PaymentInsertRow where
  student_id : String
  amount : ℚ
  method : String
  reference : Option String
  status : String
  admission_term : String
  admission_year : Int
deriving DecidableEq, Repr

structure OfflineDraft where
  studentId : String
  studentName : String
  amount : ℚ
  method : String
  reference : Option String
  term : String
  year : Int
deriving DecidableEq, Repr

inductive SubmitResult where
  | noUser
  | selectStudent
  | invalidAmount
  | stkUnavailable
  | refRequired
  | offlineMethodRejected
  | savedOffline (draft : OfflineDraft)
  | duplicateReference
  | studentNotFound
  | yearBeforeAdmission
  | termBeforeAdmission
  | feeConfigMissing (term : String)
  | unpaidTerms (terms : List String)
  | insertFailed
  | accepted (row : PaymentInsertRow)
deriving DecidableEq, Repr

structure SubmitCtx where
  userPresent : Bool
  isAdmin : Bool
  online : Bool
  students : List StudentRec
  grades : List GradeRec
  gradeTerms : List GradeTermRec
  payments : List PaymentRow
  remoteRefs : List (Option String)
  insertOk : Bool
  selectedStudentName : String
deriving DecidableEq, Repr

def termNameOf (t : Nat) : String := "Term " ++ toString t

/-- Cumulative recorded payments for one student, term name and year, as the
validation computes it over the payments held in page state. -/
def cumPaidForTerm (ps : List PaymentRow) (sid : String) (name : String) (year : Int) : ℚ :=
  ((ps.filter (fun p =>
      p.studentRef == some sid && p.admission_term == some name &&
        p.admission_year == some year)).map (fun p => p.amount.getD 0)).sum

/-- The per-term fee schedule lookup keyed by (grade, term name, year). -/
def findSchedule (gts : List GradeTermRec) (stGrade : Option String) (name : String)
    (year : Int) : Option GradeTermRec :=
  gts.find? (fun gt =>
    some gt.grade_id == stGrade && gt.term_name == name && gt.academic_year == year)

/-- Fee for term `t`: schedule entry first, else the flat per-grade
`fee_per_term`; `none` when neither is configured. -/
def termFee (gts : List GradeTermRec) (gs : List GradeRec) (stGrade : Option String)
    (year : Int) (t : Nat) : Option ℚ :=
  match findSchedule gts stGrade (termNameOf t) year with
  | some gt => some gt.fee_amount
  | none => (gs.find? (fun g => some g.id == stGrade)).map (fun g => g.fee_per_term)

inductive TermScan where
  | missingFee (name : String)
  | done (unpaid : List String)
deriving DecidableEq, Repr

/-- The `for (let t = studentAdmissionOrder; t < targetOrder; t++)` loop:
reject on the first term with no configured fee; otherwise collect the terms
whose cumulative payments fall short of the fee. -/
def scanTermsAux (gts : List GradeTermRec) (gs : List GradeRec) (ps : List PaymentRow)
    (stGrade : Option String) (sid : String) (year : Int) :
    Nat → Nat → List String → TermScan
  | _, 0, acc => .done acc.reverse
  | t, c + 1, acc =>
    match termFee gts gs stGrade year t with
    | none => .missingFee (termNameOf t)
    | some f =>
      scanTermsAux gts gs ps stGrade sid year (t + 1) c
        (if cumPaidForTerm ps sid (termNameOf t) year < f then termNameOf t :: acc else acc)

/-- Number of remote payment rows whose reference matches `q`
case-insensitively (the `ilike` uniqueness probe; `maybeSingle` rejects
exactly when this count is 1). -/
def countMatches (refs : List (Option String)) (q : String) : Nat :=
  (refs.filter (fun r =>
    match r with
    | some v => lowerStr v == lowerStr q
    | none => false)).length

def handleSubmit (ctx : SubmitCtx) (form : PaymentForm) : SubmitResult :=
  if ctx.userPresent = false then .noUser
  else if form.studentId = "" then .selectStudent
  else
    match parseAmount form.amount with
    | none => .invalidAmount
    | some amt =>
      if amt ≤ 0 then .invalidAmount
      else if form.method = "mpesa_stk" then .stkUnavailable
      else if (form.method = "mpesa" ∨ form.method = "bank") ∧ jsTrim form.reference = "" then
        .refRequired
      else if ctx.online = false then
        if form.method ≠ "cash" then .offlineMethodRejected
        else .savedOffline ⟨form.studentId, ctx.selectedStudentName, amt, form.method,
          jsOrNone form.reference, form.admissionTerm, form.admissionYear⟩
      else if sanitizeRef form.reference ≠ "" ∧
          countMatches ctx.remoteRefs (sanitizeRef form.reference) = 1 then
        .duplicateReference
      else
        match ctx.students.find? (fun s => s.id == form.studentId) with
        | none => .studentNotFound
        | some st =>
          let admOrder := parseTermOrder (some (orDefaultStr st.admission_term "Term 1"))
          let targetOrder := parseTermOrder (some form.admissionTerm)
          if form.admissionYear < st.admission_year.getD 0 then .yearBeforeAdmission
          else if targetOrder < admOrder ∧ st.admission_year = some form.admissionYear then
            .termBeforeAdmission
          else
            match
              (if admOrder < targetOrder ∧ st.admission_year = some form.admissionYear then
                scanTermsAux ctx.gradeTerms ctx.grades ctx.payments st.grade_id st.id
                  form.admissionYear admOrder (targetOrder - admOrder) []
              else .done []) with
            | .missingFee name => .feeConfigMissing name
            | .done (n :: rest) => .unpaidTerms (n :: rest)
            | .done [] =>
              if ctx.insertOk then
                .accepted ⟨form.studentId, amt, form.method, jsOrNone (sanitizeRef form.reference),
                  if ctx.isAdmin then "completed" else "pending",
                  form.admissionTerm, form.admissionYear⟩
              else .insertFailed

/-- Results that passed all validation (the write was attempted). -/
def passesValidation : SubmitResult → Bool
  | .accepted _ => true
  | .insertFailed => true
  | _ => false

/-- Results where the payment was taken (stored remotely or queued offline). -/
def isAcceptedOrSaved : SubmitResult → Bool
  | .accepted _ => true
  | .savedOffline _ => true
  | _ => false

/-- Spec-side coverage of one term: a fee is configured and the cumulative
payments reach it. -/
def feeCovered (gts : List GradeTermRec) (gs : List GradeRec) (ps : List PaymentRow)
    (stGrade : Option String) (sid : String) (year : Int) (t : Nat) : Prop :=
  ∃ f, termFee gts gs stGrade year t = some f ∧
    f ≤ cumPaidForTerm ps sid (termNameOf t) year

/-- Decidable test that term `t` has a configured fee not met by the
cumulative payments. -/
def unpaidAtB (gts : List GradeTermRec) (gs : List GradeRec) (ps : List PaymentRow)
    (stGrade : Option String) (sid : String) (year : Int) (t : Nat) : Bool :=
  match termFee gts gs stGrade year t with
  | some f => decide (cumPaidForTerm ps sid (termNameOf t) year < f)
  | none => false

/-- The names of the underpaid terms among `t, t+1, …, t+c-1`, in ascending
order. -/
def unpaidNames (gts : List GradeTermRec) (gs : List GradeRec) (ps : List PaymentRow)
    (stGrade : Option String) (sid : String) (year : Int) (t c : Nat) : List String :=
  (((List.range c).map (t + ·)).filter (unpaidAtB gts gs ps stGrade sid year)).map termNameOf

/-- Embeds `parseTermOrder(student.admission_term)` with the fallback label
of term one. -/
def admOrderOf (st : StudentRec) : Nat :=
  parseTermOrder (some (orDefaultStr st.admission_term "Term 1"))

/-- Embeds `parseTermOrder(formData.admissionTerm)`. -/
def targetOrderOf (form : PaymentForm) : Nat := parseTermOrder (some form.admissionTerm)

/-! ### Offline queue embedding (`offline-db.ts`)

Each Dexie table is a list in primary-key (insertion) order; a
query on the syncStatus index returns the matching rows in
that order. -/

inductive SyncStatus where
  | pending
  | synced
  | failed
deriving DecidableEq, Repr

structure OfflinePayment where
  localId : String
  studentId : String
  studentName : String
  amount : ℚ
  method : String
  reference : Option String
  term : String
  year : Int
  syncStatus : SyncStatus
  createdAt : Nat
  syncedId : Option String := none
  errorMessage : Option String := none
deriving DecidableEq, Repr

/-- Rows of `OfflineAdmission` and `OfflineStudent` share the same fields
(`syncedStudentId` is only ever set for admissions). -/
structure OfflineEnrollee where
  localId : String
  name : String
  dob : Option String
  gradeId : Option String
  admissionTerm : String
  admissionYear : Int
  guardianName : Option String
  guardianPhone : Option String
  guardianArea : Option String
  syncStatus : SyncStatus
  createdAt : Nat
  syncedId : Option String := none
  syncedStudentId : Option String := none
  errorMessage : Option String := none
deriving DecidableEq, Repr

structure OfflineDb where
  admissions : List OfflineEnrollee
  students : List OfflineEnrollee
  payments : List OfflinePayment
deriving DecidableEq, Repr

structure PendingItems where
  admissions : List OfflineEnrollee
  students : List OfflineEnrollee
  payments : List OfflinePayment
deriving DecidableEq, Repr

def getPendingItems (db : OfflineDb) : PendingItems :=
  ⟨db.admissions.filter (fun a => a.syncStatus == .pending),
   db.students.filter (fun s => s.syncStatus == .pending),
   db.payments.filter (fun p => p.syncStatus == .pending)⟩

def getPendingSyncCount (db : OfflineDb) : Nat :=
  (getPendingItems db).admissions.length + (getPendingItems db).students.length +
    (getPendingItems db).payments.length

def markAdmissionSynced (db : OfflineDb) (l serverId stuId : String) : OfflineDb :=
  { db with admissions := db.admissions.map (fun a =>
      if a.localId = l then
        { a with
          syncStatus := .synced
          syncedId := some serverId
          syncedStudentId := some stuId }
      else a) }

def markAdmissionFailed (db : OfflineDb) (l msg : String) : OfflineDb :=
  { db with admissions := db.admissions.map (fun a =>
      if a.localId = l then { a with syncStatus := .failed, errorMessage := some msg } else a) }

def markStudentSynced (db : OfflineDb) (l serverId : String) : OfflineDb :=
  { db with students := db.students.map (fun a =>
      if a.localId = l then { a with syncStatus := .synced, syncedId := some serverId } else a) }

def markStudentFailed (db : OfflineDb) (l msg : String) : OfflineDb :=
  { db with students := db.students.map (fun a =>
      if a.localId = l then { a with syncStatus := .failed, errorMessage := some msg } else a) }

def markPaymentSynced (db : OfflineDb) (l serverId : String) : OfflineDb :=
  { db with payments := db.payments.map (fun p =>
      if p.localId = l then { p with syncStatus := .synced, syncedId := some serverId } else p) }

def markPaymentFailed (db : OfflineDb) (l msg : String) : OfflineDb :=
  { db with payments := db.payments.map (fun p =>
      if p.localId = l then { p with syncStatus := .failed, errorMessage := some msg } else p) }

structure PaymentDraft where
  localId : String
  studentId : String
  studentName : String
  amount : ℚ
  method : String
  reference : Option String
  term : String
  year : Int
deriving DecidableEq, Repr

structure EnrolleeDraft where
  localId : String
  name : String
  dob : Option String
  gradeId : Option String
  admissionTerm : String
  admissionYear : Int
  guardianName : Option String
  guardianPhone : Option String
  guardianArea : Option String
deriving DecidableEq, Repr

/-- Embeds the payment enqueue: append the draft with a pending status and
the current timestamp. -/
def addOfflinePayment (db : OfflineDb) (d : PaymentDraft) (now : Nat) : OfflineDb :=
  { db with payments := db.payments ++
      [⟨d.localId, d.studentId, d.studentName, d.amount, d.method, d.reference, d.term,
        d.year, .pending, now, none, none⟩] }

def addOfflineAdmission (db : OfflineDb) (d : EnrolleeDraft) (now : Nat) : OfflineDb :=
  { db with admissions := db.admissions ++
      [⟨d.localId, d.name, d.dob, d.gradeId, d.admissionTerm, d.admissionYear,
        d.guardianName, d.guardianPhone, d.guardianArea, .pending, now, none, none, none⟩] }

def addOfflineStudent (db : OfflineDb) (d : EnrolleeDraft) (now : Nat) : OfflineDb :=
  { db with students := db.students ++
      [⟨d.localId, d.name, d.dob, d.gradeId, d.admissionTerm, d.admissionYear,
        d.guardianName, d.guardianPhone, d.guardianArea, .pending, now, none, none, none⟩] }

/-! ### Remote backend model

The remote tables relevant to the drain, with the filtered unique index
`payments_reference_unique_idx` on `payments(reference) WHERE reference IS
NOT NULL` (an exact, case-sensitive btree index).  `netFail` is an oracle
deciding which remote calls fail with a network error; `callIdx` counts the
calls made so far. -/

structure RemoteStudent where
  id : String
  student_id : String
  name : String
deriving DecidableEq, Repr

structure RemotePaymentRow where
  id : String
  student_id : String
  amount : ℚ
  method : String
  reference : Option String
  status : String
  admission_term : String
  admission_year : Int
deriving DecidableEq, Repr

structure Remote where
  studentsTable : List RemoteStudent
  paymentsTable : List RemotePaymentRow
  guardianCount : Nat
  nextId : Nat
  callIdx : Nat
  netFail : Nat → Bool

def Remote.tick (r : Remote) : Bool × Remote :=
  (r.netFail r.callIdx, { r with callIdx := r.callIdx + 1 })

def Remote.fresh (r : Remote) : String × Remote :=
  ("srv" ++ toString r.nextId, { r with nextId := r.nextId + 1 })

def insertStudentRow (r : Remote) (name : String) : Except String RemoteStudent × Remote :=
  let (fail, r1) := r.tick
  if fail then (.error "network error", r1)
  else
    let (id, r2) := r1.fresh
    let row : RemoteStudent := ⟨id, "", name⟩
    (.ok row, { r2 with studentsTable := r2.studentsTable ++ [row] })

/-- The guardian insert: its result is not checked by the sync code. -/
def insertGuardian (r : Remote) : Remote :=
  let (fail, r1) := r.tick
  if fail then r1 else { r1 with guardianCount := r1.guardianCount + 1 }

/-- Payment insert under the case-sensitive filtered unique index on
`reference`. -/
def insertPaymentRow (r : Remote) (row0 : RemotePaymentRow) :
    Except String RemotePaymentRow × Remote :=
  let (fail, r1) := r.tick
  if fail then (.error "network error", r1)
  else if (match row0.reference with
           | some ref => r1.paymentsTable.any (fun p => p.reference == some ref)
           | none => false) then
    (.error "duplicate key value violates unique constraint", r1)
  else
    let (id, r2) := r1.fresh
    let row := { row0 with id := id }
    (.ok row, { r2 with paymentsTable := r2.paymentsTable ++ [row] })

/-- Test that `needle` occurs inside `hay` (the `%needle%` `ilike` pattern,
applied to lowercased strings). -/
def containsSub (needle : List Char) : List Char → Bool
  | [] => needle.isEmpty
  | c :: t => listStarts needle (c :: t) || containsSub needle t

/-- The `student_id.eq.q , name.ilike.%q%` search, `limit 1`. -/
def searchStudents (q : String) (tbl : List RemoteStudent) : Option RemoteStudent :=
  tbl.find? (fun rs =>
    rs.student_id == q || containsSub (lowerStr q).toList (lowerStr rs.name).toList)

def searchStudentCall (r : Remote) (q : String) : Option RemoteStudent × Remote :=
  let (fail, r1) := r.tick
  if fail then (none, r1) else (searchStudents q r1.studentsTable, r1)

def isHexDigit (c : Char) : Bool :=
  c.isDigit || ('a' ≤ c && c ≤ 'f') || ('A' ≤ c && c ≤ 'F')

def splitOnDash (cs : List Char) : List (List Char) :=
  cs.foldr (fun c acc =>
    if c = '-' then [] :: acc
    else match acc with
      | g :: gs => (c :: g) :: gs
      | [] => [[c]]) [[]]

/-- The regex `/^[0-9a-f]{8}-[0-9a-f]{4}-[0-9a-f]{4}-[0-9a-f]{4}-[0-9a-f]{12}$/i`:
dash-separated groups of hex digits with lengths 8-4-4-4-12. -/
def isUUID (s : String) : Bool :=
  (splitOnDash s.toList).map List.length == [8, 4, 4, 4, 12] &&
    s.toList.all (fun c => c = '-' || isHexDigit c)

/-- JavaScript truthiness of a possibly-null string. -/
def optTruthy (o : Option String) : Bool :=
  match o with
  | some s => s ≠ ""
  | none => false

/-! ### Sync orchestrator embedding (`useOfflineSync.ts`) -/

structure SyncEnv where
  userPresent : Bool
  isAdmin : Bool
  online : Bool
deriving DecidableEq, Repr

inductive QKind where
  | admission
  | student
  | payment
deriving DecidableEq, Repr

/-- The drain state: queue database, remote backend, and a ghost log of the
remote submissions attempted, tagged by kind and `localId`. -/
structure DrainSt where
  db : OfflineDb
  remote : Remote
  log : List (QKind × String)

def applyAdmInsertResult (s : DrainSt) (a : OfflineEnrollee)
    (out : Except String RemoteStudent × Remote) : DrainSt :=
  match out.1 with
  | .error msg =>
    ⟨markAdmissionFailed s.db a.localId msg, out.2, s.log ++ [(QKind.admission, a.localId)]⟩
  | .ok row =>
    ⟨markAdmissionSynced s.db a.localId row.id row.student_id,
      if optTruthy a.guardianName then insertGuardian out.2 else out.2,
      s.log ++ [(QKind.admission, a.localId)]⟩

def syncAdmission1 (s : DrainSt) (a : OfflineEnrollee) : DrainSt :=
  applyAdmInsertResult s a (insertStudentRow s.remote a.name)

def applyStuInsertResult (s : DrainSt) (a : OfflineEnrollee)
    (out : Except String RemoteStudent × Remote) : DrainSt :=
  match out.1 with
  | .error msg =>
    ⟨markStudentFailed s.db a.localId msg, out.2, s.log ++ [(QKind.student, a.localId)]⟩
  | .ok row =>
    ⟨markStudentSynced s.db a.localId row.id,
      if optTruthy a.guardianName then insertGuardian out.2 else out.2,
      s.log ++ [(QKind.student, a.localId)]⟩

def syncStudent1 (s : DrainSt) (a : OfflineEnrollee) : DrainSt :=
  applyStuInsertResult s a (insertStudentRow s.remote a.name)

/-- The payment row as `syncPayment` inserts it (method `mobile` is mapped to
`mpesa`; admins sync as `completed`, others as `pending`). -/
def mkPayRow (env : SyncEnv) (p : OfflinePayment) (sid : String) : RemotePaymentRow :=
  ⟨"", sid, p.amount, if p.method = "mobile" then "mpesa" else p.method, p.reference,
    if env.isAdmin then "completed" else "pending", p.term, p.year⟩

def applyPayInsertResult (s : DrainSt) (p : OfflinePayment)
    (out : Except String RemotePaymentRow × Remote) : DrainSt :=
  match out.1 with
  | .error msg =>
    ⟨markPaymentFailed s.db p.localId msg, out.2, s.log ++ [(QKind.payment, p.localId)]⟩
  | .ok row =>
    ⟨markPaymentSynced s.db p.localId row.id, out.2, s.log ++ [(QKind.payment, p.localId)]⟩

def syncPaymentInsert (env : SyncEnv) (s : DrainSt) (p : OfflinePayment)
    (sid : String) : DrainSt :=
  applyPayInsertResult s p (insertPaymentRow s.remote (mkPayRow env p sid))

def applySearchResult (env : SyncEnv) (s : DrainSt) (p : OfflinePayment)
    (out : Option RemoteStudent × Remote) : DrainSt :=
  match out.1 with
  | none =>
    ⟨markPaymentFailed s.db p.localId ("Student not found: " ++ p.studentId), out.2, s.log⟩
  | some rs => syncPaymentInsert env ⟨s.db, out.2, s.log⟩ p rs.id

def syncPayment1 (env : SyncEnv) (s : DrainSt) (p : OfflinePayment) : DrainSt :=
  if env.userPresent = false then s
  else if isUUID p.studentId then syncPaymentInsert env s p p.studentId
  else applySearchResult env s p (searchStudentCall s.remote p.studentId)

/-- One drain pass: the pending snapshot is taken once, then each kind is
drained sequentially — admissions, then students, then payments. -/
def syncAllCore (env : SyncEnv) (s : DrainSt) : DrainSt :=
  let pend := getPendingItems s.db
  let s1 := pend.admissions.foldl syncAdmission1 s
  let s2 := pend.students.foldl syncStudent1 s1
  pend.payments.foldl (syncPayment1 env) s2

/-- Embeds `syncAll` with its single-flight guard: returns the new state and the
`isSyncing` flag after the call. -/
def syncAll (env : SyncEnv) (isSyncing : Bool) (s : DrainSt) : DrainSt × Bool :=
  if env.online = false ∨ isSyncing = true ∨ env.userPresent = false then (s, isSyncing)
  else (syncAllCore env s, false)

/-- A drain started with an empty submission log. -/
def drainRun (env : SyncEnv) (db : OfflineDb) (r : Remote) : DrainSt :=
  (syncAll env false ⟨db, r, []⟩).1

/-- Queue items of a kind, compared by creation time (FIFO order). -/
def payByCreated (x y : OfflinePayment) : Prop := x.createdAt ≤ y.createdAt

def enrByCreated (x y : OfflineEnrollee) : Prop := x.createdAt ≤ y.createdAt

/-! ### Basic cache lemmas -/

theorem getCache_set_same {α : Type} (key : String) (v : α) (o : CacheOptions)
    (now : Nat) (st : Store α) :
    (getCache key now (setCache key v o now st)).1 = some v := by
  simp only [getCache, setCache, if_pos rfl]
  simp

/-- The store returned by `getCache` answers the same lookup the same way. -/
theorem getCache_stable {α : Type} (key : String) (now : Nat) (st : Store α) :
    (getCache key now (getCache key now st).2).1 = (getCache key now st).1 := by
  unfold getCache
  cases h : st (pfxKey key) with
  | none => simp [h]
  | some e =>
    by_cases hexp : now - e.timestamp > e.ttl
    · simp [h, hexp, clearCache]
    · simp [h, hexp]

theorem listStarts_append (l m : List Char) : listStarts l (l ++ m) = true := by
  induction l with
  | nil => rfl
  | cons c cs ih => simp [listStarts, ih]

theorem strStarts_pfxKey (key : String) : strStarts cachePfx (pfxKey key) = true := by
  have h : (cachePfx ++ key).data = cachePfx.data ++ key.data := String.data_append ..
  simp only [strStarts, pfxKey, String.toList, h]
  exact listStarts_append _ _

theorem pfxKey_inj {a b : String} (h : pfxKey a = pfxKey b) : a = b := by
  have hd : (cachePfx ++ a).data = (cachePfx ++ b).data := congrArg String.data h
  rw [String.data_append, String.data_append] at hd
  exact String.ext (List.append_cancel_left hd)

/-- C7 counterexample: storing a value with `ttl = 0` and reading it back
immediately returns the value (JavaScript `options?.ttl || DEFAULT_TTL`
replaces a zero ttl with the 24-hour default), contradicting the claim that
a zero ttl prevents the value from being returned. -/
theorem cacheRoundTripTtlZeroCounterexample :
    (getCache "k" 100 (setCache "k" (5 : Nat) ⟨some 0, none⟩ 100 emptyStore)).1 = some 5 ∧
    (getCache "k" 100 (setCache "k" (5 : Nat) ⟨some 0, none⟩ 100 emptyStore)).1 ≠ none := by
  refine ⟨getCache_set_same .., ?_⟩
  rw [getCache_set_same ..]
  simp

/-- C7 (amended): `setCache key v` followed immediately by `getCache key`
returns `v` for every ttl option, including zero, because a zero ttl falls
back to the 24-hour default. -/
theorem cacheRoundTrip {α : Type} (key : String) (v : α) (o : CacheOptions)
    (now : Nat) (st : Store α) :
    (getCache key now (setCache key v o now st)).1 = some v ∧
    effTtl { ttl := some 0, essential := o.essential } = DEFAULT_TTL := by
  exact ⟨getCache_set_same .., rfl⟩

/-- C6 counterexample: `getCache` on an expired entry removes it even when the
entry is essential, although `getCache` is neither the clear-all nor the
per-key clear operation; so an operation other than an explicit clear removes
an essential entry. -/
theorem essentialLazyEvictionCounterexample :
    (setCache "students_all" (1 : Nat) ⟨some 1, none⟩ 0 emptyStore) (pfxKey "students_all")
      = some ⟨1, 0, 1, some true⟩ ∧
    isEssentialEntry (⟨1, 0, 1, some true⟩ : CacheEntry Nat) = true ∧
    (CacheOp.getOp "students_all" : CacheOp Nat) ≠ CacheOp.clearAllOp ∧
    (CacheOp.getOp "students_all" : CacheOp Nat) ≠ CacheOp.clearOp "students_all" ∧
    applyOp (CacheOp.getOp "students_all") 100
      (setCache "students_all" (1 : Nat) ⟨some 1, none⟩ 0 emptyStore) (pfxKey "students_all")
      = none := by
  refine ⟨by decide, by decide, by decide, by decide, ?_⟩
  decide

/-- C6 (amended): after `clearNonEssentialCaches` every entry stored with the
essential flag set remains unchanged and every cache entry whose flag is
false or absent is removed; and the only operations that can remove an
essential entry are clear-all, the per-key clear, and the lazy `getCache`
eviction of an entry whose age exceeds its ttl. -/
theorem clearNonEssentialSpec {α : Type} :
    (∀ (st : Store α) (k : String) (e : CacheEntry α),
        st k = some e → isEssentialEntry e = true → clearNonEssentialCaches st k = some e) ∧
    (∀ (st : Store α) (k : String) (e : CacheEntry α),
        st k = some e → strStarts cachePfx k = true → isEssentialEntry e = false →
        clearNonEssentialCaches st k = none) ∧
    (∀ (op : CacheOp α) (now : Nat) (st : Store α) (key : String) (e : CacheEntry α),
        st (pfxKey key) = some e → isEssentialEntry e = true →
        op ≠ CacheOp.clearAllOp → (∀ k, op ≠ CacheOp.clearOp k) →
        applyOp op now st (pfxKey key) = none →
        op = CacheOp.getOp key ∧ now - e.timestamp > e.ttl) := by
  refine ⟨?_, ?_, ?_⟩
  · intro st k e hst hess
    simp [clearNonEssentialCaches, hst, hess]
  · intro st k e hst hpfx hess
    simp [clearNonEssentialCaches, hst, hess, hpfx]
  · intro op now st key e hst hess hnotAll hnotClear happ
    cases op with
    | setOp k v o =>
      exfalso
      simp only [applyOp, setCache] at happ
      by_cases hk : pfxKey key = pfxKey k
      · simp [hk] at happ
      · simp [hk, hst] at happ
    | getOp k =>
      simp only [applyOp, getCache] at happ
      cases hk : st (pfxKey k) with
      | none => rw [hk] at happ; simp [hst] at happ
      | some e2 =>
        rw [hk] at happ
        by_cases hexp : now - e2.timestamp > e2.ttl
        · simp only [hexp, if_pos] at happ
          simp only [clearCache] at happ
          by_cases heq : pfxKey key = pfxKey k
          · have hkey : key = k := pfxKey_inj heq
            subst hkey
            rw [hst] at hk
            cases hk
            exact ⟨rfl, hexp⟩
          · simp [heq, hst] at happ
        · simp only [hexp, if_neg, not_false_iff] at happ
          simp [hst] at happ
    | clearOp k => exact absurd rfl (hnotClear k)
    | clearNonEssentialOp =>
      exfalso
      simp [applyOp, clearNonEssentialCaches, hst, hess] at happ
    | clearAllOp => exact absurd rfl hnotAll

/-- Witness for the amended C6 theorem at a concrete store: an essential entry
survives `clearNonEssentialCaches` unchanged. -/
theorem clearNonEssentialSpec_witness :
    clearNonEssentialCaches
      (fun k => if k = "x" then some (⟨7, 0, 5, some true⟩ : CacheEntry Nat) else none) "x"
      = some ⟨7, 0, 5, some true⟩ :=
  (clearNonEssentialSpec (α := Nat)).1 _ "x" ⟨7, 0, 5, some true⟩ (by decide) (by decide)

/-- C10: `setCache` marks the stored entry essential exactly when the key is
one of the three fixed essential keys and the caller did not pass
`essential: false`; entries under every other key are stored non-essential
even when the caller passes `essential: true`, so `clearNonEssentialCaches`
removes them. -/
theorem setCacheEssentialPolicy {α : Type} (key : String) (v : α) (o : CacheOptions)
    (now : Nat) (st : Store α) :
    (setCache key v o now st) (pfxKey key)
      = some ⟨v, now, effTtl o, some (essentialFor key o)⟩ ∧
    (essentialFor key o = true ↔
      (ESSENTIAL_CACHES.contains key = true ∧ o.essential ≠ some false)) ∧
    (ESSENTIAL_CACHES.contains key = false →
      clearNonEssentialCaches (setCache key v o now st) (pfxKey key) = none) := by
  refine ⟨by simp [setCache], ?_, ?_⟩
  · simp only [essentialFor, Bool.and_eq_true, bne_iff_ne]
    constructor
    · rintro ⟨h1, h2⟩; exact ⟨h2, h1⟩
    · rintro ⟨h1, h2⟩; exact ⟨h2, h1⟩
  · intro hcon
    have hset : (setCache key v o now st) (pfxKey key)
        = some ⟨v, now, effTtl o, some (essentialFor key o)⟩ := by simp [setCache]
    have hess : isEssentialEntry (⟨v, now, effTtl o, some (essentialFor key o)⟩ : CacheEntry α)
        = false := by
      simp only [isEssentialEntry, essentialFor, hcon, Bool.and_false]
      simp
    simp [clearNonEssentialCaches, hset, hess, strStarts_pfxKey]

/-- Witness for C10 at a concrete non-essential key with `essential: true`
requested: the stored entry is still removed by `clearNonEssentialCaches`. -/
theorem setCacheEssentialPolicy_witness :
    clearNonEssentialCaches
      (setCache "foo" (0 : Nat) ⟨none, some true⟩ 3 emptyStore) (pfxKey "foo") = none :=
  (setCacheEssentialPolicy "foo" (0 : Nat) ⟨none, some true⟩ 3 emptyStore).2.2 (by decide)

/-- C5: the read-through service: while offline it returns the cached value
when one is present and fails with the offline message otherwise; on a remote
fetch error while online it falls back to the cached value and propagates the
error only when no cached value exists. -/
theorem readThroughFallbackSpec {α : Type} (fr online : Bool) (fetch : FetchResult α)
    (now : Nat) (st : Store α) :
    (online = false →
      (∀ d, (getCache STUDENTS_KEY now st).1 = some d →
        (getStudents fr online fetch now st).1 = .ok d) ∧
      ((getCache STUDENTS_KEY now st).1 = none →
        (getStudents fr online fetch now st).1 = .error offlineNoDataMsg)) ∧
    (∀ msg, online = true → fetch = .err msg →
      (∀ d, (getCache STUDENTS_KEY now st).1 = some d →
        (getStudents fr online fetch now st).1 = .ok d) ∧
      ((getCache STUDENTS_KEY now st).1 = none →
        (getStudents fr online fetch now st).1 = .error msg)) := by
  have hstable := getCache_stable STUDENTS_KEY now st
  constructor
  · intro honline
    subst honline
    constructor
    · intro d hd
      unfold getStudents readThrough
      by_cases hfr : fr
      · simp [hfr, hd, hstable]
      · simp [hfr, hd]
    · intro hd
      unfold getStudents readThrough
      by_cases hfr : fr
      · simp [hfr, hd, hstable]
      · simp [hfr, hd, hstable.trans hd]
  · intro msg honline hfetch
    subst honline hfetch
    constructor
    · intro d hd
      unfold getStudents readThrough
      by_cases hfr : fr
      · simp [hfr, hd, hstable]
      · simp [hfr, hd]
    · intro hd
      unfold getStudents readThrough
      by_cases hfr : fr
      · simp [hfr, hd, hstable]
      · simp [hfr, hd, hstable.trans hd]

/-- Witness for C5 at a concrete populated cache while offline: the cached
list is returned instead of the offline error. -/
theorem readThroughFallbackSpec_witness :
    (getStudents false false (FetchResult.err "network down") 60
      (setCache STUDENTS_KEY [1, 2] {} 50 (emptyStore (α := List Nat)))).1 = .ok [1, 2] :=
  ((readThroughFallbackSpec false false (FetchResult.err "network down") 60
      (setCache STUDENTS_KEY [1, 2] {} 50 emptyStore)).1 rfl).1 [1, 2] (by decide)

/-! ### Term-scan lemmas -/

theorem mem_range_add (A T t : Nat) : t ∈ (List.range (T - A)).map (A + ·) ↔ A ≤ t ∧ t < T := by
  simp only [List.mem_map, List.mem_range]
  constructor
  · rintro ⟨i, hi, rfl⟩; omega
  · rintro ⟨h1, h2⟩; exact ⟨t - A, by omega, by omega⟩

theorem unpaidNames_succ (gts : List GradeTermRec) (gs : List GradeRec) (ps : List PaymentRow)
    (g : Option String) (sid : String) (y : Int) (t c : Nat) :
    unpaidNames gts gs ps g sid y t (c + 1)
      = (if unpaidAtB gts gs ps g sid y t then [termNameOf t] else [])
        ++ unpaidNames gts gs ps g sid y (t + 1) c := by
  unfold unpaidNames
  rw [List.range_succ_eq_map, List.map_cons, List.map_map]
  have hc : ((t + ·) ∘ Nat.succ) = ((t + 1) + ·) := by
    funext i
    simp only [Function.comp_apply]
    omega
  rw [hc, List.filter_cons]
  by_cases hu : unpaidAtB gts gs ps g sid y t
  · simp [Nat.add_zero, hu]
  · simp [Nat.add_zero, hu]

theorem scanTermsAux_no_missing (gts : List GradeTermRec) (gs : List GradeRec)
    (ps : List PaymentRow) (g : Option String) (sid : String) (y : Int) :
    ∀ (c t : Nat) (acc : List String),
      (∀ i, i < c → termFee gts gs g y (t + i) ≠ none) →
      scanTermsAux gts gs ps g sid y t c acc
        = .done (acc.reverse ++ unpaidNames gts gs ps g sid y t c) := by
  intro c
  induction c with
  | zero =>
    intro t acc _
    simp [scanTermsAux, unpaidNames]
  | succ c ih =>
    intro t acc h
    have h0 : termFee gts gs g y t ≠ none := by
      have := h 0 (Nat.succ_pos c)
      simpa using this
    cases hf : termFee gts gs g y t with
    | none => exact absurd hf h0
    | some f =>
      have hrest : ∀ i, i < c → termFee gts gs g y (t + 1 + i) ≠ none := by
        intro i hi
        have := h (i + 1) (by omega)
        have harr : t + (i + 1) = t + 1 + i := by omega
        rwa [harr] at this
      simp only [scanTermsAux, hf]
      rw [ih (t + 1) _ hrest, unpaidNames_succ]
      have hub : unpaidAtB gts gs ps g sid y t
          = decide (cumPaidForTerm ps sid (termNameOf t) y < f) := by
        simp [unpaidAtB, hf]
      rw [hub]
      simp only [decide_eq_true_eq]
      by_cases hlt : cumPaidForTerm ps sid (termNameOf t) y < f
      · rw [if_pos hlt, if_pos hlt]
        simp [List.reverse_cons, List.append_assoc]
      · rw [if_neg hlt, if_neg hlt]
        simp

theorem scanTermsAux_missing (gts : List GradeTermRec) (gs : List GradeRec)
    (ps : List PaymentRow) (g : Option String) (sid : String) (y : Int) :
    ∀ (c t : Nat) (acc : List String) (j : Nat), j < c →
      termFee gts gs g y (t + j) = none →
      (∀ i, i < j → termFee gts gs g y (t + i) ≠ none) →
      scanTermsAux gts gs ps g sid y t c acc = .missingFee (termNameOf (t + j)) := by
  intro c
  induction c with
  | zero => intro t acc j hj; omega
  | succ c ih =>
    intro t acc j hj hnone hsome
    cases j with
    | zero =>
      simp only [Nat.add_zero] at hnone
      simp [scanTermsAux, hnone]
    | succ j =>
      have h0 : termFee gts gs g y t ≠ none := by
        have := hsome 0 (Nat.succ_pos j)
        simpa using this
      cases hf : termFee gts gs g y t with
      | none => exact absurd hf h0
      | some f =>
        simp only [scanTermsAux, hf]
        have harr : t + (j + 1) = t + 1 + j := by omega
        rw [harr] at hnone
        have hsome2 : ∀ i, i < j → termFee gts gs g y (t + 1 + i) ≠ none := by
          intro i hi
          have := hsome (i + 1) (by omega)
          have harr2 : t + (i + 1) = t + 1 + i := by omega
          rwa [harr2] at this
        rw [harr]
        exact ih (t + 1) _ j (by omega) hnone hsome2

theorem scanTermsAux_done (gts : List GradeTermRec) (gs : List GradeRec)
    (ps : List PaymentRow) (g : Option String) (sid : String) (y : Int) :
    ∀ (c t : Nat) (acc l : List String),
      scanTermsAux gts gs ps g sid y t c acc = .done l →
      ∀ i, i < c → termFee gts gs g y (t + i) ≠ none := by
  intro c
  induction c with
  | zero => intro t acc l _ i hi; omega
  | succ c ih =>
    intro t acc l h i hi
    cases hf : termFee gts gs g y t with
    | none => simp [scanTermsAux, hf] at h
    | some f =>
      simp only [scanTermsAux, hf] at h
      cases i with
      | zero => simp [hf]
      | succ i =>
        have := ih (t + 1) _ l h i (by omega)
        have harr : t + (i + 1) = t + 1 + i := by omega
        rwa [harr]

/-! ### `handleSubmit` reduction lemmas -/

theorem handleSubmit_amount_pos (ctx : SubmitCtx) (form : PaymentForm)
    (h : isAcceptedOrSaved (handleSubmit ctx form) = true) :
    ∃ q, parseAmount form.amount = some q ∧ 0 < q := by
  by_cases h1 : ctx.userPresent = false
  · simp only [handleSubmit, h1] at h
    simp [isAcceptedOrSaved] at h
  by_cases h2 : form.studentId = ""
  · simp only [handleSubmit, h1, h2] at h
    simp [isAcceptedOrSaved] at h
  cases hp : parseAmount form.amount with
  | none =>
    simp only [handleSubmit, h1, h2, hp] at h
    simp [isAcceptedOrSaved] at h
  | some q =>
    by_cases h3 : q ≤ 0
    · simp only [handleSubmit, h1, h2, hp, h3] at h
      simp [isAcceptedOrSaved] at h
    · exact ⟨q, rfl, not_le.mp h3⟩

theorem handleSubmit_reduce_scan (ctx : SubmitCtx) (form : PaymentForm)
    (st : StudentRec) (amt : ℚ)
    (hU : ctx.userPresent = true) (hSid : form.studentId ≠ "")
    (hAmt : parseAmount form.amount = some amt) (hPos : 0 < amt)
    (hStk : form.method ≠ "mpesa_stk")
    (hRefReq : ¬((form.method = "mpesa" ∨ form.method = "bank") ∧ jsTrim form.reference = ""))
    (hOn : ctx.online = true)
    (hUniq : ¬(sanitizeRef form.reference ≠ "" ∧
      countMatches ctx.remoteRefs (sanitizeRef form.reference) = 1))
    (hFind : ctx.students.find? (fun s => s.id == form.studentId) = some st)
    (hYearEq : st.admission_year = some form.admissionYear)
    (hLater : admOrderOf st < targetOrderOf form) :
    handleSubmit ctx form =
      match scanTermsAux ctx.gradeTerms ctx.grades ctx.payments st.grade_id st.id
          form.admissionYear (admOrderOf st) (targetOrderOf form - admOrderOf st) [] with
      | .missingFee name => SubmitResult.feeConfigMissing name
      | .done (n :: rest) => SubmitResult.unpaidTerms (n :: rest)
      | .done [] =>
        if ctx.insertOk then
          SubmitResult.accepted ⟨form.studentId, amt, form.method,
            jsOrNone (sanitizeRef form.reference),
            if ctx.isAdmin then "completed" else "pending",
            form.admissionTerm, form.admissionYear⟩
        else SubmitResult.insertFailed := by
  unfold admOrderOf targetOrderOf at hLater ⊢
  have hnle : ¬ amt ≤ 0 := not_le.mpr hPos
  have hnlt : ¬ (parseTermOrder (some form.admissionTerm)
      < parseTermOrder (some (orDefaultStr st.admission_term "Term 1"))) := Nat.lt_asymm hLater
  have hyear : ¬ (form.admissionYear < st.admission_year.getD 0) := by
    rw [hYearEq]
    simp
  simp only [handleSubmit, hU, hSid, hAmt, hnle, hStk, hRefReq, hOn, hUniq, hFind,
    hYearEq, hLater, hnlt, hyear]
  simp

/-- C2: under the online submission gates, a payment for term `N` of the
admission year of the student passes validation exactly when every term from the
admission term (inclusive) up to but excluding `N` has cumulative recorded
payments meeting its configured fee; the fee is the per-term schedule entry
keyed by (grade, term name, year) when present, else the flat per-grade
`fee_per_term`; a term with neither configured makes the submission fail with
a fee-configuration rejection, and underpaid terms are rejected by name. -/
theorem termSequenceEnforcement
    (ctx : SubmitCtx) (form : PaymentForm) (st : StudentRec) (amt : ℚ)
    (hU : ctx.userPresent = true) (hSid : form.studentId ≠ "")
    (hAmt : parseAmount form.amount = some amt) (hPos : 0 < amt)
    (hStk : form.method ≠ "mpesa_stk")
    (hRefReq : ¬((form.method = "mpesa" ∨ form.method = "bank") ∧ jsTrim form.reference = ""))
    (hOn : ctx.online = true)
    (hUniq : ¬(sanitizeRef form.reference ≠ "" ∧
      countMatches ctx.remoteRefs (sanitizeRef form.reference) = 1))
    (hFind : ctx.students.find? (fun s => s.id == form.studentId) = some st)
    (hYearEq : st.admission_year = some form.admissionYear)
    (hLater : admOrderOf st < targetOrderOf form) :
    (passesValidation (handleSubmit ctx form) = true ↔
      ∀ t, admOrderOf st ≤ t → t < targetOrderOf form →
        feeCovered ctx.gradeTerms ctx.grades ctx.payments st.grade_id st.id
          form.admissionYear t) ∧
    (∀ t gt, findSchedule ctx.gradeTerms st.grade_id (termNameOf t) form.admissionYear = some gt →
      termFee ctx.gradeTerms ctx.grades st.grade_id form.admissionYear t = some gt.fee_amount) ∧
    (∀ t, findSchedule ctx.gradeTerms st.grade_id (termNameOf t) form.admissionYear = none →
      termFee ctx.gradeTerms ctx.grades st.grade_id form.admissionYear t
        = (ctx.grades.find? (fun gr => some gr.id == st.grade_id)).map
            (fun gr => gr.fee_per_term)) ∧
    (∀ t, admOrderOf st ≤ t → t < targetOrderOf form →
      termFee ctx.gradeTerms ctx.grades st.grade_id form.admissionYear t = none →
      (∀ u, admOrderOf st ≤ u → u < t →
        termFee ctx.gradeTerms ctx.grades st.grade_id form.admissionYear u ≠ none) →
      handleSubmit ctx form = .feeConfigMissing (termNameOf t)) ∧
    ((∀ t, admOrderOf st ≤ t → t < targetOrderOf form →
        termFee ctx.gradeTerms ctx.grades st.grade_id form.admissionYear t ≠ none) →
      unpaidNames ctx.gradeTerms ctx.grades ctx.payments st.grade_id st.id form.admissionYear
        (admOrderOf st) (targetOrderOf form - admOrderOf st) ≠ [] →
      handleSubmit ctx form = .unpaidTerms
        (unpaidNames ctx.gradeTerms ctx.grades ctx.payments st.grade_id st.id form.admissionYear
          (admOrderOf st) (targetOrderOf form - admOrderOf st))) := by
  have hred := handleSubmit_reduce_scan ctx form st amt hU hSid hAmt hPos hStk hRefReq hOn
    hUniq hFind hYearEq hLater
  refine ⟨?_, ?_, ?_, ?_, ?_⟩
  · constructor
    · intro hpass
      rw [hred] at hpass
      cases hscan : scanTermsAux ctx.gradeTerms ctx.grades ctx.payments st.grade_id st.id
          form.admissionYear (admOrderOf st) (targetOrderOf form - admOrderOf st) [] with
      | missingFee name =>
        rw [hscan] at hpass
        simp [passesValidation] at hpass
      | done l =>
        have hnomiss := scanTermsAux_done ctx.gradeTerms ctx.grades ctx.payments st.grade_id
          st.id form.admissionYear (targetOrderOf form - admOrderOf st) (admOrderOf st) [] l hscan
        cases l with
        | cons n r =>
          rw [hscan] at hpass
          simp [passesValidation] at hpass
        | nil =>
          have hfull := scanTermsAux_no_missing ctx.gradeTerms ctx.grades ctx.payments
            st.grade_id st.id form.admissionYear (targetOrderOf form - admOrderOf st)
            (admOrderOf st) [] hnomiss
          rw [hscan] at hfull
          have hunp : unpaidNames ctx.gradeTerms ctx.grades ctx.payments st.grade_id st.id
              form.admissionYear (admOrderOf st) (targetOrderOf form - admOrderOf st) = [] := by
            have := hfull
            simp at this
            exact this
          intro t ht1 ht2
          have hfee := hnomiss (t - admOrderOf st) (by omega)
          rw [show admOrderOf st + (t - admOrderOf st) = t from by omega] at hfee
          cases hf : termFee ctx.gradeTerms ctx.grades st.grade_id form.admissionYear t with
          | none => exact absurd hf hfee
          | some f =>
            refine ⟨f, hf, ?_⟩
            by_contra hlt
            have hmem : t ∈ (List.range (targetOrderOf form - admOrderOf st)).map
                (admOrderOf st + ·) := (mem_range_add _ _ _).2 ⟨ht1, ht2⟩
            have hub : unpaidAtB ctx.gradeTerms ctx.grades ctx.payments st.grade_id st.id
                form.admissionYear t = true := by
              simp only [unpaidAtB, hf]
              simpa using not_le.mp hlt
            have : t ∈ ((List.range (targetOrderOf form - admOrderOf st)).map
                (admOrderOf st + ·)).filter (unpaidAtB ctx.gradeTerms ctx.grades ctx.payments
                  st.grade_id st.id form.admissionYear) := List.mem_filter.2 ⟨hmem, hub⟩
            have : termNameOf t ∈ unpaidNames ctx.gradeTerms ctx.grades ctx.payments
                st.grade_id st.id form.admissionYear (admOrderOf st)
                (targetOrderOf form - admOrderOf st) := List.mem_map_of_mem termNameOf this
            rw [hunp] at this
            exact absurd this (List.not_mem_nil _)
    · intro hcov
      have hnomiss : ∀ i, i < targetOrderOf form - admOrderOf st →
          termFee ctx.gradeTerms ctx.grades st.grade_id form.admissionYear
            (admOrderOf st + i) ≠ none := by
        intro i hi
        obtain ⟨f, hf, _⟩ := hcov (admOrderOf st + i) (by omega) (by omega)
        simp [hf]
      have hscan := scanTermsAux_no_missing ctx.gradeTerms ctx.grades ctx.payments
        st.grade_id st.id form.admissionYear (targetOrderOf form - admOrderOf st)
        (admOrderOf st) [] hnomiss
      have hunp : unpaidNames ctx.gradeTerms ctx.grades ctx.payments st.grade_id st.id
          form.admissionYear (admOrderOf st) (targetOrderOf form - admOrderOf st) = [] := by
        unfold unpaidNames
        rw [List.map_eq_nil_iff]
        rw [List.filter_eq_nil_iff]
        intro a ha
        have hmem := (mem_range_add (admOrderOf st) (targetOrderOf form) a).1 ha
        obtain ⟨f, hf, hle⟩ := hcov a hmem.1 hmem.2
        simp only [unpaidAtB, hf]
        simpa using not_lt.2 hle
      rw [hred, hscan, hunp]
      simp only [List.reverse_nil, List.nil_append]
      cases hio : ctx.insertOk <;> simp [passesValidation]
  · intro t gt h
    simp [termFee, h]
  · intro t h
    simp [termFee, h]
  · intro t ht1 ht2 hnone hprior
    have hscan := scanTermsAux_missing ctx.gradeTerms ctx.grades ctx.payments st.grade_id
      st.id form.admissionYear (targetOrderOf form - admOrderOf st) (admOrderOf st) []
      (t - admOrderOf st) (by omega)
      (by rw [show admOrderOf st + (t - admOrderOf st) = t from by omega]; exact hnone)
      (by
        intro i hi
        exact hprior (admOrderOf st + i) (by omega) (by omega))
    rw [show admOrderOf st + (t - admOrderOf st) = t from by omega] at hscan
    rw [hred, hscan]
  · intro hall hne
    have hnomiss : ∀ i, i < targetOrderOf form - admOrderOf st →
        termFee ctx.gradeTerms ctx.grades st.grade_id form.admissionYear
          (admOrderOf st + i) ≠ none := by
      intro i hi
      exact hall (admOrderOf st + i) (by omega) (by omega)
    have hscan := scanTermsAux_no_missing ctx.gradeTerms ctx.grades ctx.payments st.grade_id
      st.id form.admissionYear (targetOrderOf form - admOrderOf st) (admOrderOf st) [] hnomiss
    rw [hred, hscan]
    simp only [List.reverse_nil, List.nil_append]
    cases hu : unpaidNames ctx.gradeTerms ctx.grades ctx.payments st.grade_id st.id
        form.admissionYear (admOrderOf st) (targetOrderOf form - admOrderOf st) with
    | nil => exact absurd hu hne
    | cons n r => rfl

/-- Witness for C2 at the concrete scenario of the specification: a student
admitted in Term 1 of 2025 with a configured Term 1 fee of 100 and no
payments; a submission for Term 2 of 2025 is rejected naming Term 1. -/
theorem termSequenceEnforcement_witness :
    handleSubmit
      ⟨true, false, true, [⟨"s1", "ADM1", "Alice", some "g1", some "Term 1", some 2025⟩],
        [], [⟨"g1", "Term 1", 2025, 100⟩], [], [], true, ""⟩
      ⟨"s1", "500", "cash", "", "Term 2", 2025⟩ = .unpaidTerms ["Term 1"] := by
  have h := (termSequenceEnforcement
      ⟨true, false, true, [⟨"s1", "ADM1", "Alice", some "g1", some "Term 1", some 2025⟩],
        [], [⟨"g1", "Term 1", 2025, 100⟩], [], [], true, ""⟩
      ⟨"s1", "500", "cash", "", "Term 2", 2025⟩
      ⟨"s1", "ADM1", "Alice", some "g1", some "Term 1", some 2025⟩ 500
      rfl (by decide) (by decide) (by norm_num) (by decide) (by decide) rfl (by decide)
      (by decide) rfl (by decide)).2.2.2.2 ?_ ?_
  · rw [h]
    decide
  · intro t h1 h2
    have e1 : admOrderOf ⟨"s1", "ADM1", "Alice", some "g1", some "Term 1", some 2025⟩ = 1 := by
      decide
    have e2 : targetOrderOf ⟨"s1", "500", "cash", "", "Term 2", 2025⟩ = 2 := by decide
    rw [e1] at h1
    rw [e2] at h2
    have ht : t = 1 := by omega
    subst ht
    decide
  · decide

/-- C8: the amount normalization maps `"KSh 1,850.00"` and `"1850"` to the
numeric amount 1850 and rejects `"-5"` and `"abc"`; and every submission the
handler accepts (stored remotely or queued offline) has a normalized amount
strictly greater than 0. -/
theorem amountNormalizationSpec :
    parseAmount "KSh 1,850.00" = some 1850 ∧
    parseAmount "1850" = some 1850 ∧
    parseAmount "-5" = some (-5) ∧
    parseAmount "abc" = none ∧
    (∀ ctx form, isAcceptedOrSaved (handleSubmit ctx form) = true →
      ∃ q, parseAmount form.amount = some q ∧ 0 < q) ∧
    (∀ ctx form, ctx.userPresent = true → form.studentId ≠ "" →
      form.amount = "-5" ∨ form.amount = "abc" →
      handleSubmit ctx form = .invalidAmount) := by
  refine ⟨by decide, by decide, by decide, by decide, handleSubmit_amount_pos, ?_⟩
  intro ctx form hU hSid hcase
  cases hcase with
  | inl h =>
    have hp : parseAmount form.amount = some (-5) := by rw [h]; decide
    have hle : (-5 : ℚ) ≤ 0 := by norm_num
    simp [handleSubmit, hU, hSid, hp, hle]
  | inr h =>
    have hp : parseAmount form.amount = none := by rw [h]; decide
    simp [handleSubmit, hU, hSid, hp]

/-- Witness for C8: the accept-implies-positive conjunct at a concrete
accepted submission, and the rejection conjunct at a concrete `"-5"` form. -/
theorem amountNormalizationSpec_witness :
    (∃ q, parseAmount "1850" = some q ∧ 0 < q) ∧
    handleSubmit ⟨true, false, true, [], [], [], [], [], true, ""⟩
      ⟨"s1", "-5", "cash", "", "Term 1", 2025⟩ = .invalidAmount := by
  constructor
  · exact amountNormalizationSpec.2.2.2.2.1
      ⟨true, false, true, [⟨"s1", "ADM1", "Alice", some "g1", some "Term 1", some 2025⟩],
        [], [], [], [], true, ""⟩
      ⟨"s1", "1850", "cash", "", "Term 1", 2025⟩ (by decide)
  · exact amountNormalizationSpec.2.2.2.2.2
      ⟨true, false, true, [], [], [], [], [], true, ""⟩
      ⟨"s1", "-5", "cash", "", "Term 1", 2025⟩ rfl (by decide) (Or.inl rfl)

/-! ### Drain lemmas: a marked item is never left pending, pending items can
only originate from pending items not yet processed. -/

theorem markPaymentSynced_pending_trace (db : OfflineDb) (l sid : String) :
    ∀ q ∈ (markPaymentSynced db l sid).payments, q.syncStatus = .pending →
      q ∈ db.payments ∧ q.localId ≠ l := by
  intro q hq hpend
  simp only [markPaymentSynced, List.mem_map] at hq
  obtain ⟨p0, hp0, rfl⟩ := hq
  by_cases h : p0.localId = l
  · simp [h] at hpend
  · rw [if_neg h]
    exact ⟨hp0, h⟩

theorem markPaymentFailed_pending_trace (db : OfflineDb) (l msg : String) :
    ∀ q ∈ (markPaymentFailed db l msg).payments, q.syncStatus = .pending →
      q ∈ db.payments ∧ q.localId ≠ l := by
  intro q hq hpend
  simp only [markPaymentFailed, List.mem_map] at hq
  obtain ⟨p0, hp0, rfl⟩ := hq
  by_cases h : p0.localId = l
  · simp [h] at hpend
  · rw [if_neg h]
    exact ⟨hp0, h⟩

theorem markAdmissionSynced_pending_trace (db : OfflineDb) (l sid stuId : String) :
    ∀ q ∈ (markAdmissionSynced db l sid stuId).admissions, q.syncStatus = .pending →
      q ∈ db.admissions ∧ q.localId ≠ l := by
  intro q hq hpend
  simp only [markAdmissionSynced, List.mem_map] at hq
  obtain ⟨p0, hp0, rfl⟩ := hq
  by_cases h : p0.localId = l
  · simp [h] at hpend
  · rw [if_neg h]
    exact ⟨hp0, h⟩

theorem markAdmissionFailed_pending_trace (db : OfflineDb) (l msg : String) :
    ∀ q ∈ (markAdmissionFailed db l msg).admissions, q.syncStatus = .pending →
      q ∈ db.admissions ∧ q.localId ≠ l := by
  intro q hq hpend
  simp only [markAdmissionFailed, List.mem_map] at hq
  obtain ⟨p0, hp0, rfl⟩ := hq
  by_cases h : p0.localId = l
  · simp [h] at hpend
  · rw [if_neg h]
    exact ⟨hp0, h⟩

theorem markStudentSynced_pending_trace (db : OfflineDb) (l sid : String) :
    ∀ q ∈ (markStudentSynced db l sid).students, q.syncStatus = .pending →
      q ∈ db.students ∧ q.localId ≠ l := by
  intro q hq hpend
  simp only [markStudentSynced, List.mem_map] at hq
  obtain ⟨p0, hp0, rfl⟩ := hq
  by_cases h : p0.localId = l
  · simp [h] at hpend
  · rw [if_neg h]
    exact ⟨hp0, h⟩

theorem markStudentFailed_pending_trace (db : OfflineDb) (l msg : String) :
    ∀ q ∈ (markStudentFailed db l msg).students, q.syncStatus = .pending →
      q ∈ db.students ∧ q.localId ≠ l := by
  intro q hq hpend
  simp only [markStudentFailed, List.mem_map] at hq
  obtain ⟨p0, hp0, rfl⟩ := hq
  by_cases h : p0.localId = l
  · simp [h] at hpend
  · rw [if_neg h]
    exact ⟨hp0, h⟩

theorem applyAdmInsertResult_props (s : DrainSt) (a : OfflineEnrollee)
    (out : Except String RemoteStudent × Remote) :
    ((applyAdmInsertResult s a out).db.students = s.db.students ∧
     (applyAdmInsertResult s a out).db.payments = s.db.payments) ∧
    (∀ q ∈ (applyAdmInsertResult s a out).db.admissions, q.syncStatus = .pending →
      q ∈ s.db.admissions ∧ q.localId ≠ a.localId) ∧
    (applyAdmInsertResult s a out).log = s.log ++ [(QKind.admission, a.localId)] := by
  obtain ⟨res, r⟩ := out
  cases res with
  | error msg => exact ⟨⟨rfl, rfl⟩, markAdmissionFailed_pending_trace s.db a.localId msg, rfl⟩
  | ok row =>
    exact ⟨⟨rfl, rfl⟩, markAdmissionSynced_pending_trace s.db a.localId row.id row.student_id,
      rfl⟩

theorem syncAdmission1_props (s : DrainSt) (a : OfflineEnrollee) :
    ((syncAdmission1 s a).db.students = s.db.students ∧
     (syncAdmission1 s a).db.payments = s.db.payments) ∧
    (∀ q ∈ (syncAdmission1 s a).db.admissions, q.syncStatus = .pending →
      q ∈ s.db.admissions ∧ q.localId ≠ a.localId) ∧
    (syncAdmission1 s a).log = s.log ++ [(QKind.admission, a.localId)] :=
  applyAdmInsertResult_props s a _

theorem applyStuInsertResult_props (s : DrainSt) (a : OfflineEnrollee)
    (out : Except String RemoteStudent × Remote) :
    ((applyStuInsertResult s a out).db.admissions = s.db.admissions ∧
     (applyStuInsertResult s a out).db.payments = s.db.payments) ∧
    (∀ q ∈ (applyStuInsertResult s a out).db.students, q.syncStatus = .pending →
      q ∈ s.db.students ∧ q.localId ≠ a.localId) ∧
    (applyStuInsertResult s a out).log = s.log ++ [(QKind.student, a.localId)] := by
  obtain ⟨res, r⟩ := out
  cases res with
  | error msg => exact ⟨⟨rfl, rfl⟩, markStudentFailed_pending_trace s.db a.localId msg, rfl⟩
  | ok row => exact ⟨⟨rfl, rfl⟩, markStudentSynced_pending_trace s.db a.localId row.id, rfl⟩

theorem syncStudent1_props (s : DrainSt) (a : OfflineEnrollee) :
    ((syncStudent1 s a).db.admissions = s.db.admissions ∧
     (syncStudent1 s a).db.payments = s.db.payments) ∧
    (∀ q ∈ (syncStudent1 s a).db.students, q.syncStatus = .pending →
      q ∈ s.db.students ∧ q.localId ≠ a.localId) ∧
    (syncStudent1 s a).log = s.log ++ [(QKind.student, a.localId)] :=
  applyStuInsertResult_props s a _

theorem applyPayInsertResult_props (s : DrainSt) (p : OfflinePayment)
    (out : Except String RemotePaymentRow × Remote) :
    ((applyPayInsertResult s p out).db.admissions = s.db.admissions ∧
     (applyPayInsertResult s p out).db.students = s.db.students) ∧
    (∀ q ∈ (applyPayInsertResult s p out).db.payments, q.syncStatus = .pending →
      q ∈ s.db.payments ∧ q.localId ≠ p.localId) ∧
    (applyPayInsertResult s p out).log = s.log ++ [(QKind.payment, p.localId)] := by
  obtain ⟨res, r⟩ := out
  cases res with
  | error msg => exact ⟨⟨rfl, rfl⟩, markPaymentFailed_pending_trace s.db p.localId msg, rfl⟩
  | ok row => exact ⟨⟨rfl, rfl⟩, markPaymentSynced_pending_trace s.db p.localId row.id, rfl⟩

theorem syncPaymentInsert_props (env : SyncEnv) (s : DrainSt) (p : OfflinePayment)
    (sid : String) :
    ((syncPaymentInsert env s p sid).db.admissions = s.db.admissions ∧
     (syncPaymentInsert env s p sid).db.students = s.db.students) ∧
    (∀ q ∈ (syncPaymentInsert env s p sid).db.payments, q.syncStatus = .pending →
      q ∈ s.db.payments ∧ q.localId ≠ p.localId) ∧
    (syncPaymentInsert env s p sid).log = s.log ++ [(QKind.payment, p.localId)] :=
  applyPayInsertResult_props s p _

theorem applySearchResult_props (env : SyncEnv) (s : DrainSt) (p : OfflinePayment)
    (out : Option RemoteStudent × Remote) :
    ((applySearchResult env s p out).db.admissions = s.db.admissions ∧
     (applySearchResult env s p out).db.students = s.db.students) ∧
    (∀ q ∈ (applySearchResult env s p out).db.payments, q.syncStatus = .pending →
      q ∈ s.db.payments ∧ q.localId ≠ p.localId) ∧
    ((applySearchResult env s p out).log = s.log ∨
     (applySearchResult env s p out).log = s.log ++ [(QKind.payment, p.localId)]) := by
  obtain ⟨res, r⟩ := out
  cases res with
  | none =>
    exact ⟨⟨rfl, rfl⟩,
      markPaymentFailed_pending_trace s.db p.localId ("Student not found: " ++ p.studentId),
      Or.inl rfl⟩
  | some rs =>
    have h := syncPaymentInsert_props env ⟨s.db, r, s.log⟩ p rs.id
    exact ⟨h.1, h.2.1, Or.inr h.2.2⟩

theorem syncPayment1_props (env : SyncEnv) (s : DrainSt) (p : OfflinePayment)
    (hU : env.userPresent = true) :
    ((syncPayment1 env s p).db.admissions = s.db.admissions ∧
     (syncPayment1 env s p).db.students = s.db.students) ∧
    (∀ q ∈ (syncPayment1 env s p).db.payments, q.syncStatus = .pending →
      q ∈ s.db.payments ∧ q.localId ≠ p.localId) ∧
    ((syncPayment1 env s p).log = s.log ∨
     (syncPayment1 env s p).log = s.log ++ [(QKind.payment, p.localId)]) := by
  unfold syncPayment1
  rw [if_neg (by simp [hU])]
  by_cases h2 : isUUID p.studentId
  · rw [if_pos h2]
    have h := syncPaymentInsert_props env s p p.studentId
    exact ⟨h.1, h.2.1, Or.inr h.2.2⟩
  · rw [if_neg h2]
    exact applySearchResult_props env s p _

/-! ### Fold lemmas over the three drain loops -/

theorem foldl_proj_eq {β γ : Type} (f : DrainSt → β → DrainSt) (proj : DrainSt → γ)
    (h : ∀ s b, proj (f s b) = proj s) :
    ∀ (l : List β) (s : DrainSt), proj (l.foldl f s) = proj s := by
  intro l
  induction l with
  | nil => intro s; rfl
  | cons a t ih => intro s; rw [List.foldl_cons, ih, h]

theorem foldAdm_pending_trace :
    ∀ (l : List OfflineEnrollee) (s : DrainSt), ∀ q ∈ (l.foldl syncAdmission1 s).db.admissions,
      q.syncStatus = .pending → q ∈ s.db.admissions ∧ ∀ b ∈ l, q.localId ≠ b.localId := by
  intro l
  induction l with
  | nil => intro s q hq hp; exact ⟨hq, by simp⟩
  | cons a t ih =>
    intro s q hq hp
    obtain ⟨hq2, hne⟩ := ih (syncAdmission1 s a) q hq hp
    obtain ⟨hq3, hnea⟩ := (syncAdmission1_props s a).2.1 q hq2 hp
    refine ⟨hq3, ?_⟩
    intro b hb
    rcases List.mem_cons.mp hb with rfl | hb2
    · exact hnea
    · exact hne b hb2

theorem foldStu_pending_trace :
    ∀ (l : List OfflineEnrollee) (s : DrainSt), ∀ q ∈ (l.foldl syncStudent1 s).db.students,
      q.syncStatus = .pending → q ∈ s.db.students ∧ ∀ b ∈ l, q.localId ≠ b.localId := by
  intro l
  induction l with
  | nil => intro s q hq hp; exact ⟨hq, by simp⟩
  | cons a t ih =>
    intro s q hq hp
    obtain ⟨hq2, hne⟩ := ih (syncStudent1 s a) q hq hp
    obtain ⟨hq3, hnea⟩ := (syncStudent1_props s a).2.1 q hq2 hp
    refine ⟨hq3, ?_⟩
    intro b hb
    rcases List.mem_cons.mp hb with rfl | hb2
    · exact hnea
    · exact hne b hb2

theorem foldPay_pending_trace (env : SyncEnv) (hU : env.userPresent = true) :
    ∀ (l : List OfflinePayment) (s : DrainSt),
      ∀ q ∈ (l.foldl (syncPayment1 env) s).db.payments,
      q.syncStatus = .pending → q ∈ s.db.payments ∧ ∀ b ∈ l, q.localId ≠ b.localId := by
  intro l
  induction l with
  | nil => intro s q hq hp; exact ⟨hq, by simp⟩
  | cons a t ih =>
    intro s q hq hp
    obtain ⟨hq2, hne⟩ := ih (syncPayment1 env s a) q hq hp
    obtain ⟨hq3, hnea⟩ := (syncPayment1_props env s a hU).2.1 q hq2 hp
    refine ⟨hq3, ?_⟩
    intro b hb
    rcases List.mem_cons.mp hb with rfl | hb2
    · exact hnea
    · exact hne b hb2

theorem syncAllCore_no_pending (env : SyncEnv) (s : DrainSt) (hU : env.userPresent = true) :
    (∀ q ∈ (syncAllCore env s).db.admissions, q.syncStatus ≠ .pending) ∧
    (∀ q ∈ (syncAllCore env s).db.students, q.syncStatus ≠ .pending) ∧
    (∀ q ∈ (syncAllCore env s).db.payments, q.syncStatus ≠ .pending) := by
  simp only [syncAllCore]
  have eStuAdm : ∀ (l : List OfflineEnrollee) (s0 : DrainSt),
      (l.foldl syncStudent1 s0).db.admissions = s0.db.admissions :=
    fun l s0 => foldl_proj_eq syncStudent1 (fun st => st.db.admissions)
      (fun s1 b => (syncStudent1_props s1 b).1.1) l s0
  have eStuPay : ∀ (l : List OfflineEnrollee) (s0 : DrainSt),
      (l.foldl syncStudent1 s0).db.payments = s0.db.payments :=
    fun l s0 => foldl_proj_eq syncStudent1 (fun st => st.db.payments)
      (fun s1 b => (syncStudent1_props s1 b).1.2) l s0
  have eAdmStu : ∀ (l : List OfflineEnrollee) (s0 : DrainSt),
      (l.foldl syncAdmission1 s0).db.students = s0.db.students :=
    fun l s0 => foldl_proj_eq syncAdmission1 (fun st => st.db.students)
      (fun s1 b => (syncAdmission1_props s1 b).1.1) l s0
  have eAdmPay : ∀ (l : List OfflineEnrollee) (s0 : DrainSt),
      (l.foldl syncAdmission1 s0).db.payments = s0.db.payments :=
    fun l s0 => foldl_proj_eq syncAdmission1 (fun st => st.db.payments)
      (fun s1 b => (syncAdmission1_props s1 b).1.2) l s0
  have ePayAdm : ∀ (l : List OfflinePayment) (s0 : DrainSt),
      (l.foldl (syncPayment1 env) s0).db.admissions = s0.db.admissions :=
    fun l s0 => foldl_proj_eq (syncPayment1 env) (fun st => st.db.admissions)
      (fun s1 b => (syncPayment1_props env s1 b hU).1.1) l s0
  have ePayStu : ∀ (l : List OfflinePayment) (s0 : DrainSt),
      (l.foldl (syncPayment1 env) s0).db.students = s0.db.students :=
    fun l s0 => foldl_proj_eq (syncPayment1 env) (fun st => st.db.students)
      (fun s1 b => (syncPayment1_props env s1 b hU).1.2) l s0
  refine ⟨?_, ?_, ?_⟩
  · intro q hq hp
    rw [ePayAdm, eStuAdm] at hq
    obtain ⟨hmem, hne⟩ := foldAdm_pending_trace (getPendingItems s.db).admissions s q hq hp
    have hqpend : q ∈ (getPendingItems s.db).admissions :=
      List.mem_filter.mpr ⟨hmem, by simp [hp]⟩
    exact hne q hqpend rfl
  · intro q hq hp
    rw [ePayStu] at hq
    obtain ⟨hmem, hne⟩ := foldStu_pending_trace (getPendingItems s.db).students _ q hq hp
    rw [eAdmStu] at hmem
    have hqpend : q ∈ (getPendingItems s.db).students :=
      List.mem_filter.mpr ⟨hmem, by simp [hp]⟩
    exact hne q hqpend rfl
  · intro q hq hp
    obtain ⟨hmem, hne⟩ := foldPay_pending_trace env hU (getPendingItems s.db).payments _ q hq hp
    rw [eStuPay, eAdmPay] at hmem
    have hqpend : q ∈ (getPendingItems s.db).payments :=
      List.mem_filter.mpr ⟨hmem, by simp [hp]⟩
    exact hne q hqpend rfl

theorem syncAll_guard_pass (env : SyncEnv) (s : DrainSt) (hOn : env.online = true)
    (hU : env.userPresent = true) : syncAll env false s = (syncAllCore env s, false) := by
  simp [syncAll, hOn, hU]

theorem drain_pending_empty (env : SyncEnv) (s : DrainSt) (hOn : env.online = true)
    (hU : env.userPresent = true) :
    getPendingItems ((syncAll env false s).1).db = ⟨[], [], []⟩ := by
  rw [syncAll_guard_pass env s hOn hU]
  obtain ⟨h1, h2, h3⟩ := syncAllCore_no_pending env s hU
  simp only [getPendingItems]
  refine congrArg₂ (PendingItems.mk · · _) ?_ ?_ |>.trans (congrArg _ ?_)
  · exact List.filter_eq_nil_iff.mpr (fun a ha => by simpa using h1 a ha)
  · exact List.filter_eq_nil_iff.mpr (fun a ha => by simpa using h2 a ha)
  · exact List.filter_eq_nil_iff.mpr (fun a ha => by simpa using h3 a ha)

theorem syncAllCore_id (env : SyncEnv) (s : DrainSt)
    (hpend : getPendingItems s.db = ⟨[], [], []⟩) : syncAllCore env s = s := by
  simp [syncAllCore, hpend]

/-! ### Submission-log lemmas -/

theorem foldAdm_log : ∀ (l : List OfflineEnrollee) (s : DrainSt),
    (l.foldl syncAdmission1 s).log = s.log ++ l.map (fun b => (QKind.admission, b.localId)) := by
  intro l
  induction l with
  | nil => intro s; simp
  | cons a t ih =>
    intro s
    rw [List.foldl_cons, ih, (syncAdmission1_props s a).2.2]
    simp

theorem foldStu_log : ∀ (l : List OfflineEnrollee) (s : DrainSt),
    (l.foldl syncStudent1 s).log = s.log ++ l.map (fun b => (QKind.student, b.localId)) := by
  intro l
  induction l with
  | nil => intro s; simp
  | cons a t ih =>
    intro s
    rw [List.foldl_cons, ih, (syncStudent1_props s a).2.2]
    simp

theorem foldPay_log (env : SyncEnv) (hU : env.userPresent = true) :
    ∀ (l : List OfflinePayment) (s : DrainSt),
      ∃ e, (l.foldl (syncPayment1 env) s).log = s.log ++ e ∧
        List.Sublist e (l.map (fun b => (QKind.payment, b.localId))) := by
  intro l
  induction l with
  | nil => intro s; exact ⟨[], by simp, List.nil_sublist _⟩
  | cons a t ih =>
    intro s
    obtain ⟨e, he, hsub⟩ := ih (syncPayment1 env s a)
    rcases (syncPayment1_props env s a hU).2.2 with h | h
    · exact ⟨e, by rw [List.foldl_cons, he, h], hsub.cons _⟩
    · refine ⟨(QKind.payment, a.localId) :: e, ?_, hsub.cons₂ _⟩
      rw [List.foldl_cons, he, h, List.append_assoc]
      rfl

theorem syncAllCore_log (env : SyncEnv) (s : DrainSt) (hU : env.userPresent = true) :
    ∃ eP, (syncAllCore env s).log
        = s.log ++ (getPendingItems s.db).admissions.map (fun b => (QKind.admission, b.localId))
          ++ (getPendingItems s.db).students.map (fun b => (QKind.student, b.localId)) ++ eP ∧
      List.Sublist eP ((getPendingItems s.db).payments.map (fun b => (QKind.payment, b.localId))) := by
  simp only [syncAllCore]
  obtain ⟨eP, he, hsub⟩ := foldPay_log env hU (getPendingItems s.db).payments
    ((getPendingItems s.db).students.foldl syncStudent1
      ((getPendingItems s.db).admissions.foldl syncAdmission1 s))
  refine ⟨eP, ?_, hsub⟩
  rw [he, foldStu_log, foldAdm_log]

theorem tagged_nodup {β : Type} (k : QKind) (l : List β) (locId : β → String)
    (h : (l.map locId).Nodup) : (l.map (fun b => (k, locId b))).Nodup := by
  have heq : l.map (fun b => (k, locId b)) = (l.map locId).map (fun x => (k, x)) := by
    rw [List.map_map]
    rfl
  rw [heq]
  exact h.map (fun a b hab => by simpa using hab)

theorem tagged_kind {β : Type} (k : QKind) (l : List β) (locId : β → String) :
    ∀ x ∈ l.map (fun b => (k, locId b)), x.1 = k := by
  intro x hx
  obtain ⟨b, _, rfl⟩ := List.mem_map.mp hx
  rfl

theorem drain_log_nodup (env : SyncEnv) (db : OfflineDb) (r : Remote)
    (hOn : env.online = true) (hU : env.userPresent = true)
    (hA : (db.admissions.map (fun a => a.localId)).Nodup)
    (hS : (db.students.map (fun a => a.localId)).Nodup)
    (hP : (db.payments.map (fun p => p.localId)).Nodup) :
    (drainRun env db r).log.Nodup := by
  unfold drainRun
  rw [syncAll_guard_pass env _ hOn hU]
  obtain ⟨eP, he, hsub⟩ := syncAllCore_log env ⟨db, r, []⟩ hU
  rw [he]
  simp only [List.nil_append]
  have hApend : ((getPendingItems db).admissions.map (fun a => a.localId)).Nodup :=
    ((List.filter_sublist _).map _).nodup hA
  have hSpend : ((getPendingItems db).students.map (fun a => a.localId)).Nodup :=
    ((List.filter_sublist _).map _).nodup hS
  have hPpend : ((getPendingItems db).payments.map (fun p => p.localId)).Nodup :=
    ((List.filter_sublist _).map _).nodup hP
  have nA := tagged_nodup QKind.admission (getPendingItems db).admissions _ hApend
  have nS := tagged_nodup QKind.student (getPendingItems db).students _ hSpend
  have nP : eP.Nodup :=
    hsub.nodup (tagged_nodup QKind.payment (getPendingItems db).payments _ hPpend)
  have kA := tagged_kind QKind.admission (getPendingItems db).admissions (fun a => a.localId)
  have kS := tagged_kind QKind.student (getPendingItems db).students (fun a => a.localId)
  have kP : ∀ x ∈ eP, x.1 = QKind.payment := fun x hx =>
    tagged_kind QKind.payment (getPendingItems db).payments (fun p => p.localId) x
      (hsub.subset hx)
  rw [List.nodup_append, List.nodup_append]
  refine ⟨⟨nA, nS, ?_⟩, nP, ?_⟩
  · intro x hxA hxS
    have := (kA x hxA).symm.trans (kS x hxS)
    simp at this
  · intro x hx hxP
    have hxpay := kP x hxP
    rcases List.mem_append.mp hx with h | h
    · have := (kA x h).symm.trans hxpay
      simp at this
    · have := (kS x h).symm.trans hxpay
      simp at this

/-- C1: after a completed drain (online, user present, no drain already in
flight), every queue item of any kind that was `pending` when the drain
started is `synced` or `failed`; none is left `pending`. -/
theorem syncAll_status_totality (env : SyncEnv) (isSyncing : Bool) (s : DrainSt)
    (hOn : env.online = true) (hU : env.userPresent = true) (hFree : isSyncing = false) :
    (∀ a ∈ s.db.admissions, a.syncStatus = .pending →
      ∀ q ∈ ((syncAll env isSyncing s).1).db.admissions, q.localId = a.localId →
        q.syncStatus = .synced ∨ q.syncStatus = .failed) ∧
    (∀ a ∈ s.db.students, a.syncStatus = .pending →
      ∀ q ∈ ((syncAll env isSyncing s).1).db.students, q.localId = a.localId →
        q.syncStatus = .synced ∨ q.syncStatus = .failed) ∧
    (∀ p ∈ s.db.payments, p.syncStatus = .pending →
      ∀ q ∈ ((syncAll env isSyncing s).1).db.payments, q.localId = p.localId →
        q.syncStatus = .synced ∨ q.syncStatus = .failed) := by
  subst hFree
  rw [syncAll_guard_pass env s hOn hU]
  obtain ⟨h1, h2, h3⟩ := syncAllCore_no_pending env s hU
  refine ⟨?_, ?_, ?_⟩
  · intro a _ _ q hq _
    have hnp := h1 q hq
    cases hcs : q.syncStatus with
    | pending => exact absurd hcs hnp
    | synced => exact Or.inl rfl
    | failed => exact Or.inr rfl
  · intro a _ _ q hq _
    have hnp := h2 q hq
    cases hcs : q.syncStatus with
    | pending => exact absurd hcs hnp
    | synced => exact Or.inl rfl
    | failed => exact Or.inr rfl
  · intro p _ _ q hq _
    have hnp := h3 q hq
    cases hcs : q.syncStatus with
    | pending => exact absurd hcs hnp
    | synced => exact Or.inl rfl
    | failed => exact Or.inr rfl

/-- Witness for C1 at a concrete queue with one pending item of each kind:
the payment that was pending at drain start ends synced-or-failed. -/
theorem syncAll_status_totality_witness :
    (⟨"lp1", "11111111-1111-1111-1111-111111111111", "Cal", 100, "cash", some "R1",
        "Term 1", 2025, .synced, 2, some "srv2", none⟩ : OfflinePayment).syncStatus = .synced ∨
    (⟨"lp1", "11111111-1111-1111-1111-111111111111", "Cal", 100, "cash", some "R1",
        "Term 1", 2025, .synced, 2, some "srv2", none⟩ : OfflinePayment).syncStatus = .failed :=
  (syncAll_status_totality ⟨true, false, true⟩ false
      ⟨⟨[⟨"la1", "Ann", none, none, "Term 1", 2025, none, none, none, .pending, 0,
          none, none, none⟩],
        [⟨"ls1", "Ben", none, none, "Term 1", 2025, none, none, none, .pending, 1,
          none, none, none⟩],
        [⟨"lp1", "11111111-1111-1111-1111-111111111111", "Cal", 100, "cash", some "R1",
          "Term 1", 2025, .pending, 2, none, none⟩]⟩,
        ⟨[], [], 0, 0, 0, fun _ => false⟩, []⟩ rfl rfl rfl).2.2
    ⟨"lp1", "11111111-1111-1111-1111-111111111111", "Cal", 100, "cash", some "R1",
      "Term 1", 2025, .pending, 2, none, none⟩ (by decide) rfl
    ⟨"lp1", "11111111-1111-1111-1111-111111111111", "Cal", 100, "cash", some "R1",
      "Term 1", 2025, .synced, 2, some "srv2", none⟩ (by decide) (by decide)

/-- C4: a drain request while a drain is in progress is ignored (state and
submission log unchanged); and draining twice in succession with no new
enqueues submits no queue item twice — the log of the first drain has no
duplicates and the log of the second drain is empty. -/
theorem syncAll_single_flight (env : SyncEnv) (db : OfflineDb) (r : Remote) :
    (∀ s : DrainSt, syncAll env true s = (s, true)) ∧
    (env.online = true → env.userPresent = true →
      (db.admissions.map (fun a => a.localId)).Nodup →
      (db.students.map (fun a => a.localId)).Nodup →
      (db.payments.map (fun p => p.localId)).Nodup →
      ((drainRun env db r).log ++
        (drainRun env (drainRun env db r).db (drainRun env db r).remote).log).Nodup ∧
      (drainRun env (drainRun env db r).db (drainRun env db r).remote).log = []) := by
  constructor
  · intro s
    simp [syncAll]
  · intro hOn hU hA hS hP
    have h1 := drain_log_nodup env db r hOn hU hA hS hP
    have hclear : getPendingItems (drainRun env db r).db = ⟨[], [], []⟩ :=
      drain_pending_empty env ⟨db, r, []⟩ hOn hU
    have h2gen : ∀ d1 : DrainSt, getPendingItems d1.db = ⟨[], [], []⟩ →
        (drainRun env d1.db d1.remote).log = [] := by
      intro d1 hcl
      unfold drainRun
      rw [syncAll_guard_pass _ _ hOn hU]
      rw [syncAllCore_id env ⟨d1.db, d1.remote, []⟩ hcl]
    have h2 := h2gen (drainRun env db r) hclear
    rw [h2]
    exact ⟨by simpa using h1, rfl⟩

/-- Witness for C4 at a concrete queue with distinct local ids. -/
theorem syncAll_single_flight_witness :
    ((drainRun ⟨true, false, true⟩
        ⟨[], [], [⟨"lp1", "11111111-1111-1111-1111-111111111111", "Cal", 100, "cash",
          some "R1", "Term 1", 2025, .pending, 2, none, none⟩]⟩
        ⟨[], [], 0, 0, 0, fun _ => false⟩).log ++
      (drainRun ⟨true, false, true⟩
        (drainRun ⟨true, false, true⟩
          ⟨[], [], [⟨"lp1", "11111111-1111-1111-1111-111111111111", "Cal", 100, "cash",
            some "R1", "Term 1", 2025, .pending, 2, none, none⟩]⟩
          ⟨[], [], 0, 0, 0, fun _ => false⟩).db
        (drainRun ⟨true, false, true⟩
          ⟨[], [], [⟨"lp1", "11111111-1111-1111-1111-111111111111", "Cal", 100, "cash",
            some "R1", "Term 1", 2025, .pending, 2, none, none⟩]⟩
          ⟨[], [], 0, 0, 0, fun _ => false⟩).remote).log).Nodup :=
  ((syncAll_single_flight ⟨true, false, true⟩
      ⟨[], [], [⟨"lp1", "11111111-1111-1111-1111-111111111111", "Cal", 100, "cash",
        some "R1", "Term 1", 2025, .pending, 2, none, none⟩]⟩
      ⟨[], [], 0, 0, 0, fun _ => false⟩).2 rfl rfl (by decide) (by decide) (by decide)).1

/-- C9: listing the pending items of a kind returns them in queue (primary
key) order as a sublist, which is `createdAt`-ascending whenever the queue
itself is — and every queue reachable by the enqueue operations is,
since each enqueue appends an item stamped with the current time. -/
theorem getPendingItems_fifo (db : OfflineDb)
    (ha : db.admissions.Pairwise enrByCreated)
    (hs : db.students.Pairwise enrByCreated)
    (hp : db.payments.Pairwise payByCreated) :
    ((getPendingItems db).admissions.Pairwise enrByCreated ∧
     (getPendingItems db).students.Pairwise enrByCreated ∧
     (getPendingItems db).payments.Pairwise payByCreated) ∧
    (List.Sublist (getPendingItems db).admissions db.admissions ∧
     List.Sublist (getPendingItems db).students db.students ∧
     List.Sublist (getPendingItems db).payments db.payments) ∧
    (∀ (d : PaymentDraft) (now : Nat), (∀ p ∈ db.payments, p.createdAt ≤ now) →
      (addOfflinePayment db d now).payments.Pairwise payByCreated) := by
  refine ⟨⟨?_, ?_, ?_⟩,
    ⟨List.filter_sublist _, List.filter_sublist _, List.filter_sublist _⟩, ?_⟩
  · exact ha.sublist (List.filter_sublist _)
  · exact hs.sublist (List.filter_sublist _)
  · exact hp.sublist (List.filter_sublist _)
  · intro d now hbound
    simp only [addOfflinePayment]
    rw [List.pairwise_append]
    refine ⟨hp, List.pairwise_singleton _ _, ?_⟩
    intro x hx y hy
    have hyy := List.mem_singleton.mp hy
    subst hyy
    exact hbound x hx

/-- Witness for C9 at a concrete queue: the pending payments keep ascending
creation order. -/
theorem getPendingItems_fifo_witness :
    (getPendingItems ⟨[], [],
        [⟨"lp1", "s", "A", 1, "cash", none, "Term 1", 2025, .synced, 3, none, none⟩,
         ⟨"lp2", "s", "B", 2, "cash", none, "Term 1", 2025, .pending, 5, none, none⟩,
         ⟨"lp3", "s", "C", 3, "cash", none, "Term 1", 2025, .pending, 9, none,
          none⟩]⟩).payments.Pairwise payByCreated :=
  ((getPendingItems_fifo ⟨[], [],
      [⟨"lp1", "s", "A", 1, "cash", none, "Term 1", 2025, .synced, 3, none, none⟩,
       ⟨"lp2", "s", "B", 2, "cash", none, "Term 1", 2025, .pending, 5, none, none⟩,
       ⟨"lp3", "s", "C", 3, "cash", none, "Term 1", 2025, .pending, 9, none, none⟩]⟩
      (by simp) (by simp)
      (by simp [List.pairwise_cons, payByCreated])).1).2.2

/-! ### Reference-uniqueness lemmas -/

theorem countMatches_append (refs : List (Option String)) (v q : String) :
    countMatches (refs ++ [some v]) q
      = countMatches refs q + (if lowerStr v = lowerStr q then 1 else 0) := by
  simp only [countMatches, List.filter_append]
  rw [List.length_append]
  by_cases h : lowerStr v = lowerStr q <;> simp [h]

/-- Any accepted direct submission stores the sanitized reference (or null),
was made online, and passed the case-insensitive uniqueness probe. -/
theorem handleSubmit_accepted_ref (ctx : SubmitCtx) (form : PaymentForm)
    (row : PaymentInsertRow) (h : handleSubmit ctx form = .accepted row) :
    row.reference = jsOrNone (sanitizeRef form.reference) ∧ ctx.online = true ∧
    ¬(sanitizeRef form.reference ≠ "" ∧
      countMatches ctx.remoteRefs (sanitizeRef form.reference) = 1) := by
  by_cases h1 : ctx.userPresent = false
  · simp [handleSubmit, h1] at h
  by_cases h2 : form.studentId = ""
  · simp [handleSubmit, h1, h2] at h
  cases hp : parseAmount form.amount with
  | none => simp [handleSubmit, h1, h2, hp] at h
  | some amt =>
  by_cases h3 : amt ≤ 0
  · simp [handleSubmit, h1, h2, hp, h3] at h
  by_cases h4 : form.method = "mpesa_stk"
  · simp [handleSubmit, h1, h2, hp, h3, h4] at h
  by_cases h5 : (form.method = "mpesa" ∨ form.method = "bank") ∧ jsTrim form.reference = ""
  · simp [handleSubmit, h1, h2, hp, h3, h4, h5] at h
  by_cases h6 : ctx.online = false
  · by_cases h6b : form.method = "cash"
    · simp [handleSubmit, h1, h2, hp, h3, h4, h5, h6, h6b] at h
    · simp [handleSubmit, h1, h2, hp, h3, h4, h5, h6, h6b] at h
  have hOn : ctx.online = true := by
    cases hcb : ctx.online
    · exact absurd hcb h6
    · rfl
  by_cases h7 : sanitizeRef form.reference ≠ "" ∧
      countMatches ctx.remoteRefs (sanitizeRef form.reference) = 1
  · simp [handleSubmit, h1, h2, hp, h3, h4, h5, h6, h7] at h
  refine ⟨?_, hOn, h7⟩
  cases hfind : ctx.students.find? (fun s2 => s2.id == form.studentId) with
  | none => simp [handleSubmit, h1, h2, hp, h3, h4, h5, h6, h7, hfind] at h
  | some st =>
  by_cases h8 : form.admissionYear < st.admission_year.getD 0
  · simp [handleSubmit, h1, h2, hp, h3, h4, h5, h6, h7, hfind, h8] at h
  by_cases h9 : parseTermOrder (some form.admissionTerm)
      < parseTermOrder (some (orDefaultStr st.admission_term "Term 1")) ∧
      st.admission_year = some form.admissionYear
  · simp [handleSubmit, h1, h2, hp, h3, h4, h5, h6, h7, hfind, h8, h9] at h
  simp [handleSubmit, h1, h2, hp, h3, h4, h5, h6, h7, hfind, h8, h9] at h
  by_cases h9b : parseTermOrder (some (orDefaultStr st.admission_term "Term 1"))
      < parseTermOrder (some form.admissionTerm) ∧
      st.admission_year = some form.admissionYear
  · simp only [h9b, if_pos] at h
    cases hscan : scanTermsAux ctx.gradeTerms ctx.grades ctx.payments st.grade_id st.id
        form.admissionYear (parseTermOrder (some (orDefaultStr st.admission_term "Term 1")))
        (parseTermOrder (some form.admissionTerm)
          - parseTermOrder (some (orDefaultStr st.admission_term "Term 1"))) [] with
    | missingFee name => rw [hscan] at h; simp at h
    | done l =>
      rw [hscan] at h
      cases l with
      | cons n rest => simp at h
      | nil =>
        by_cases h10 : ctx.insertOk = true
        · rw [if_pos h10] at h
          injection h with h
          rw [← h]
        · rw [if_neg h10] at h
          simp at h
  · rw [if_neg h9b] at h
    by_cases h10 : ctx.insertOk = true
    · rw [if_pos h10] at h
      injection h with h
      rw [← h]
    · rw [if_neg h10] at h
      simp at h

/-- C3 counterexample: two queued payments whose reference strings are
identical up to case (`"ABC"` and `"abc"`) are BOTH synced by the drain —
`syncPayment` applies no uniqueness check and the remote unique index is
case-sensitive — contradicting `exactly one Synced and one ValidationError`. -/
theorem referenceUniquenessCounterexample :
    ((drainRun ⟨true, false, true⟩
        ⟨[], [], [⟨"lp1", "11111111-1111-1111-1111-111111111111", "A", 100, "cash",
            some "ABC", "Term 1", 2025, .pending, 0, none, none⟩,
          ⟨"lp2", "11111111-1111-1111-1111-111111111111", "B", 200, "cash",
            some "abc", "Term 1", 2025, .pending, 1, none, none⟩]⟩
        ⟨[], [], 0, 0, 0, fun _ => false⟩).db.payments.map
      (fun p => p.syncStatus)) = [.synced, .synced] ∧
    ((drainRun ⟨true, false, true⟩
        ⟨[], [], [⟨"lp1", "11111111-1111-1111-1111-111111111111", "A", 100, "cash",
            some "ABC", "Term 1", 2025, .pending, 0, none, none⟩,
          ⟨"lp2", "11111111-1111-1111-1111-111111111111", "B", 200, "cash",
            some "abc", "Term 1", 2025, .pending, 1, none, none⟩]⟩
        ⟨[], [], 0, 0, 0, fun _ => false⟩).db.payments.filter
      (fun p => p.syncStatus == .synced)).length ≠ 1 := by
  constructor
  · decide
  · decide

/-- C3 (amended): at direct submission the uniqueness check is
case-insensitive — after a first submission with a nonempty sanitized
reference is accepted, a second online submission whose sanitized reference
matches it up to case is rejected as a duplicate.  At drain time the replay
applies no application-level check: queued payments are subject only to the
remote case-sensitive unique index, so an exact duplicate reference is
marked failed while references differing only in case both sync. -/
theorem referenceUniqueness
    (ctx : SubmitCtx) (form1 form2 : PaymentForm) (ins : PaymentInsertRow) (amt2 : ℚ)
    (hAcc : handleSubmit ctx form1 = .accepted ins)
    (hRef1 : sanitizeRef form1.reference ≠ "")
    (hCase : lowerStr (sanitizeRef form2.reference) = lowerStr (sanitizeRef form1.reference))
    (hRef2 : sanitizeRef form2.reference ≠ "")
    (hCnt : countMatches ctx.remoteRefs (sanitizeRef form2.reference) = 0)
    (hU : ctx.userPresent = true) (hSid2 : form2.studentId ≠ "")
    (hAmt2 : parseAmount form2.amount = some amt2) (hPos2 : 0 < amt2)
    (hStk2 : form2.method ≠ "mpesa_stk")
    (hRefReq2 :
      ¬((form2.method = "mpesa" ∨ form2.method = "bank") ∧ jsTrim form2.reference = "")) :
    (ins.reference = some (sanitizeRef form1.reference) ∧
      handleSubmit { ctx with remoteRefs := ctx.remoteRefs ++ [ins.reference] } form2
        = .duplicateReference) ∧
    (((drainRun ⟨true, false, true⟩
        ⟨[], [], [⟨"lp1", "11111111-1111-1111-1111-111111111111", "A", 100, "cash",
            some "RR1", "Term 1", 2025, .pending, 0, none, none⟩,
          ⟨"lp2", "11111111-1111-1111-1111-111111111111", "B", 200, "cash",
            some "RR1", "Term 1", 2025, .pending, 1, none, none⟩]⟩
        ⟨[], [], 0, 0, 0, fun _ => false⟩).db.payments.map
      (fun p => p.syncStatus)) = [.synced, .failed] ∧
     ((drainRun ⟨true, false, true⟩
        ⟨[], [], [⟨"lp1", "11111111-1111-1111-1111-111111111111", "A", 100, "cash",
            some "ABC", "Term 1", 2025, .pending, 0, none, none⟩,
          ⟨"lp2", "11111111-1111-1111-1111-111111111111", "B", 200, "cash",
            some "abc", "Term 1", 2025, .pending, 1, none, none⟩]⟩
        ⟨[], [], 0, 0, 0, fun _ => false⟩).db.payments.map
      (fun p => p.syncStatus)) = [.synced, .synced]) := by
  obtain ⟨hInsRef, hOn, _⟩ := handleSubmit_accepted_ref ctx form1 ins hAcc
  have hInsRef2 : ins.reference = some (sanitizeRef form1.reference) := by
    rw [hInsRef]
    simp [jsOrNone, hRef1]
  refine ⟨⟨hInsRef2, ?_⟩, by decide, by decide⟩
  have hcond : sanitizeRef form2.reference ≠ "" ∧
      countMatches (ctx.remoteRefs ++ [ins.reference]) (sanitizeRef form2.reference) = 1 := by
    refine ⟨hRef2, ?_⟩
    rw [hInsRef2, countMatches_append, hCnt, if_pos hCase.symm]
  have hnle2 : ¬ amt2 ≤ 0 := not_le.mpr hPos2
  simp [handleSubmit, hU, hSid2, hAmt2, hnle2, hStk2, hRefReq2, hOn, hcond]

/-- Witness for the amended C3 at concrete forms with references `"AB-1"` and
`"ab-1"`. -/
theorem referenceUniqueness_witness :
    (⟨"s1", 100, "cash", some "AB-1", "pending", "Term 1", 2025⟩ :
        PaymentInsertRow).reference = some (sanitizeRef "AB-1") ∧
    handleSubmit
      { userPresent := true, isAdmin := false, online := true,
        students := [⟨"s1", "ADM1", "Alice", some "g1", some "Term 1", some 2025⟩],
        grades := [], gradeTerms := [], payments := [],
        remoteRefs := [] ++ [(⟨"s1", 100, "cash", some "AB-1", "pending", "Term 1", 2025⟩ :
          PaymentInsertRow).reference],
        insertOk := true, selectedStudentName := "" }
      ⟨"s1", "100", "cash", "ab-1", "Term 1", 2025⟩ = .duplicateReference :=
  (referenceUniqueness
    ⟨true, false, true, [⟨"s1", "ADM1", "Alice", some "g1", some "Term 1", some 2025⟩],
      [], [], [], [], true, ""⟩
    ⟨"s1", "100", "cash", "AB-1", "Term 1", 2025⟩
    ⟨"s1", "100", "cash", "ab-1", "Term 1", 2025⟩
    ⟨"s1", 100, "cash", some "AB-1", "pending", "Term 1", 2025⟩ 100
    (by decide) (by decide) (by decide) (by decide) (by decide) rfl (by decide)
    (by decide) (by decide) (by decide) (by decide)).1

end AdmissionHub
